import Mathlib

/-!
Verification of the apple-photos-management export pipeline.

Shallow embedding of the core modules of the repository:
`src/security/security_utils.py`, `src/core/file_organizer.py`,
`src/core/metadata_extractor.py`, `src/core/duplicate_handler.py` and
`src/core/export_photos.py`.  Strings are modelled as `List Char`
(Python `str` is a sequence of unicode code points, `ord` is `Char.toNat`),
machine integers as `Nat`/`Int`, datetimes as a record of their fields,
and the filesystem, where needed, as an explicit list of existing paths.
-/

/-! ## Python string primitives -/

/-- Characters stripped by `filename.strip('. ')` in
`security_utils.sanitize_filename`. -/
def isDotOrSpace (c : Char) : Bool := c = '.' || c = ' '

/-- The dangerous-character set of `security_utils.sanitize_filename`
(`'<>:"/\\|?*'`). -/
def isDangerousChar (c : Char) : Bool :=
  c = '<' || c = '>' || c = ':' || c = '"' || c = '/' || c = '\\' ||
  c = '|' || c = '?' || c = '*'

/-- Python `s.strip(chars)`: drop characters of the set from both ends. -/
def pyStrip (p : Char → Bool) (s : List Char) : List Char :=
  ((s.dropWhile p).reverse.dropWhile p).reverse

/-- Python slice `s[:k]` for an `Int` bound: a negative bound counts from the
end, and out-of-range bounds clamp. -/
def pySliceTo (s : List Char) (k : Int) : List Char :=
  if 0 ≤ k then s.take k.toNat else s.take ((s.length : Int) + k).toNat

/-- Index of the last `'.'` of a name, if any. -/
def lastDotIdx (s : List Char) : Option Nat :=
  match s.reverse.findIdx? (· = '.') with
  | none => none
  | some j => some (s.length - 1 - j)

/-- `os.path.splitext` restricted to plain file names (no path separator):
split at the rightmost dot, except that a name whose characters before that
dot are all dots (leading dots) has no extension (CPython
`genericpath._splitext`). -/
def splitext (s : List Char) : List Char × List Char :=
  match lastDotIdx s with
  | none => (s, [])
  | some i => if (s.take i).all (· = '.') then (s, []) else (s.take i, s.drop i)

/-- The dangerous-character replacement and control-character removal stages
of `security_utils.sanitize_filename`: each sequential `str.replace` of the
loop is character-wise and `'_'` is not itself dangerous, so the loop equals
one character map; then characters with `ord(char) >= 32` are kept. -/
def cleanedName (s : List Char) : List Char :=
  (s.map (fun c => if isDangerousChar c then '_' else c)).filter
    (fun c => 32 ≤ c.toNat)

/-- `security_utils.sanitize_filename` before the final 255-character
truncation: empty-input fallback, dangerous-character replacement,
control-character removal, strip of leading/trailing dots and spaces, and
the post-strip empty fallback. -/
def sanitizeCore (s : List Char) : List Char :=
  if s = [] then "unnamed".data
  else if pyStrip isDotOrSpace (cleanedName s) = [] then "unnamed".data
  else pyStrip isDotOrSpace (cleanedName s)

/-- `security_utils.sanitize_filename`: the core stages followed by the
length limit `name[:255-len(ext)] + ext` applied when the result exceeds
255 characters. -/
def sanitize_filename (s : List Char) : List Char :=
  if 255 < (sanitizeCore s).length then
    pySliceTo (splitext (sanitizeCore s)).1
        (255 - (((splitext (sanitizeCore s)).2.length : Int))) ++
      (splitext (sanitizeCore s)).2
  else sanitizeCore s

/-! ## Helper lemmas about the string primitives -/

theorem dropWhile_head_false {α : Type} (p : α → Bool) :
    ∀ (l : List α) (a : α) (t : List α), l.dropWhile p = a :: t → p a = false := by
  intro l
  induction l with
  | nil => intro a t h; simp [List.dropWhile] at h
  | cons b bs ih =>
    intro a t h
    by_cases hb : p b
    · rw [List.dropWhile_cons_of_pos hb] at h
      exact ih a t h
    · rw [List.dropWhile_cons_of_neg hb] at h
      cases h
      simpa using hb

theorem pyStrip_head (p : Char → Bool) (s : List Char) (a : Char) (t : List Char)
    (h : pyStrip p s = a :: t) : p a = false := by
  unfold pyStrip at h
  have hsplit := List.takeWhile_append_dropWhile (p := p) (l := (s.dropWhile p).reverse)
  have hu : s.dropWhile p =
      ((s.dropWhile p).reverse.dropWhile p).reverse ++
        ((s.dropWhile p).reverse.takeWhile p).reverse :=
    calc s.dropWhile p
        = ((s.dropWhile p).reverse).reverse := (List.reverse_reverse _).symm
      _ = (((s.dropWhile p).reverse.takeWhile p) ++
            ((s.dropWhile p).reverse.dropWhile p)).reverse := by rw [hsplit]
      _ = ((s.dropWhile p).reverse.dropWhile p).reverse ++
            ((s.dropWhile p).reverse.takeWhile p).reverse := by
            rw [List.reverse_append]
  rw [h, List.cons_append] at hu
  exact dropWhile_head_false p s a _ hu

theorem pyStrip_getLast (p : Char → Bool) (s : List Char) (a : Char)
    (h : (pyStrip p s).getLast? = some a) : p a = false := by
  unfold pyStrip at h
  rw [List.getLast?_reverse] at h
  rcases hd : (s.dropWhile p).reverse.dropWhile p with _ | ⟨b, t⟩
  · rw [hd] at h; simp at h
  · rw [hd] at h
    simp at h
    subst h
    exact dropWhile_head_false p _ b t hd

theorem mem_pyStrip {p : Char → Bool} {s : List Char} {c : Char}
    (h : c ∈ pyStrip p s) : c ∈ s := by
  unfold pyStrip at h
  rw [List.mem_reverse] at h
  have h1 : c ∈ (s.dropWhile p).reverse := (List.dropWhile_sublist p).mem h
  rw [List.mem_reverse] at h1
  exact (List.dropWhile_sublist p).mem h1

theorem lastDotIdx_lt {s : List Char} {i : Nat} (h : lastDotIdx s = some i) :
    i < s.length := by
  unfold lastDotIdx at h
  rcases hf : s.reverse.findIdx? (· = '.') with _ | j
  · rw [hf] at h; simp at h
  · rw [hf] at h
    simp at h
    have hne : s ≠ [] := by
      intro hnil
      subst hnil
      simp at hf
    have : 1 ≤ s.length := by
      cases s with
      | nil => exact absurd rfl hne
      | cons _ _ => simp
    omega

theorem mem_unnamed_ok {c : Char} (h : c ∈ "unnamed".data) :
    isDangerousChar c = false ∧ 32 ≤ c.toNat := by
  have he : "unnamed".data = ['u', 'n', 'n', 'a', 'm', 'e', 'd'] := rfl
  rw [he] at h
  fin_cases h <;> decide

theorem mem_cleanedName {s : List Char} {c : Char} (h : c ∈ cleanedName s) :
    isDangerousChar c = false ∧ 32 ≤ c.toNat := by
  unfold cleanedName at h
  have h2 := List.of_mem_filter h
  have h3 := List.mem_of_mem_filter h
  rcases List.mem_map.mp h3 with ⟨o, _, ho⟩
  refine ⟨?_, by simpa using h2⟩
  by_cases hd : isDangerousChar o
  · rw [if_pos hd] at ho; rw [← ho]; decide
  · rw [if_neg hd] at ho; rw [← ho]; simpa using hd

theorem mem_sanitizeCore {s : List Char} {c : Char} (h : c ∈ sanitizeCore s) :
    isDangerousChar c = false ∧ 32 ≤ c.toNat := by
  unfold sanitizeCore at h
  by_cases hs : s = []
  · rw [if_pos hs] at h
    exact mem_unnamed_ok h
  · rw [if_neg hs] at h
    by_cases hstr : pyStrip isDotOrSpace (cleanedName s) = []
    · rw [if_pos hstr] at h
      exact mem_unnamed_ok h
    · rw [if_neg hstr] at h
      exact mem_cleanedName (mem_pyStrip h)

theorem sanitizeCore_ne_nil (s : List Char) : sanitizeCore s ≠ [] := by
  unfold sanitizeCore
  by_cases hs : s = []
  · rw [if_pos hs]; decide
  · rw [if_neg hs]
    by_cases hstr : pyStrip isDotOrSpace (cleanedName s) = []
    · rw [if_pos hstr]; decide
    · rw [if_neg hstr]; exact hstr

theorem sanitizeCore_head (s : List Char) (a : Char)
    (h : (sanitizeCore s).head? = some a) : isDotOrSpace a = false := by
  unfold sanitizeCore at h
  by_cases hs : s = []
  · rw [if_pos hs] at h
    rw [show ("unnamed".data).head? = some 'u' from rfl] at h
    rw [← Option.some.inj h]; decide
  · rw [if_neg hs] at h
    by_cases hstr : pyStrip isDotOrSpace (cleanedName s) = []
    · rw [if_pos hstr] at h
      rw [show ("unnamed".data).head? = some 'u' from rfl] at h
      rw [← Option.some.inj h]; decide
    · rw [if_neg hstr] at h
      rcases hd : pyStrip isDotOrSpace (cleanedName s) with _ | ⟨b, t⟩
      · exact absurd hd hstr
      · rw [hd] at h
        simp at h
        subst h
        exact pyStrip_head _ _ _ _ hd

theorem sanitizeCore_getLast (s : List Char) (a : Char)
    (h : (sanitizeCore s).getLast? = some a) : isDotOrSpace a = false := by
  unfold sanitizeCore at h
  by_cases hs : s = []
  · rw [if_pos hs] at h
    rw [show ("unnamed".data).getLast? = some 'd' from rfl] at h
    rw [← Option.some.inj h]; decide
  · rw [if_neg hs] at h
    by_cases hstr : pyStrip isDotOrSpace (cleanedName s) = []
    · rw [if_pos hstr] at h
      rw [show ("unnamed".data).getLast? = some 'd' from rfl] at h
      rw [← Option.some.inj h]; decide
    · rw [if_neg hstr] at h
      exact pyStrip_getLast _ _ _ h

theorem splitext_of_none {s : List Char} (h : lastDotIdx s = none) :
    splitext s = (s, []) := by
  unfold splitext
  rw [h]

theorem splitext_of_all {s : List Char} {i : Nat} (h : lastDotIdx s = some i)
    (hall : (s.take i).all (· = '.')) : splitext s = (s, []) := by
  unfold splitext
  rw [h]
  simp [hall]

theorem splitext_of_dot {s : List Char} {i : Nat} (h : lastDotIdx s = some i)
    (hall : ¬(s.take i).all (· = '.')) :
    splitext s = (s.take i, s.drop i) := by
  unfold splitext
  rw [h]
  simp [hall]

theorem splitext_cases (s : List Char) :
    splitext s = (s, []) ∨
    ∃ i, i < s.length ∧ splitext s = (s.take i, s.drop i) := by
  rcases hL : lastDotIdx s with _ | i
  · exact Or.inl (splitext_of_none hL)
  · by_cases hall : (s.take i).all (· = '.')
    · exact Or.inl (splitext_of_all hL hall)
    · exact Or.inr ⟨i, lastDotIdx_lt hL, splitext_of_dot hL hall⟩

theorem mem_splitext_fst {s : List Char} {c : Char}
    (h : c ∈ (splitext s).1) : c ∈ s := by
  rcases splitext_cases s with he | ⟨i, _, he⟩
  · rw [he] at h; exact h
  · rw [he] at h; exact (List.take_sublist i s).mem h

theorem mem_splitext_snd {s : List Char} {c : Char}
    (h : c ∈ (splitext s).2) : c ∈ s := by
  rcases splitext_cases s with he | ⟨i, _, he⟩
  · rw [he] at h; simp at h
  · rw [he] at h; exact (List.drop_sublist i s).mem h

theorem splitext_snd_nil {s : List Char} (h : (splitext s).2 = []) :
    (splitext s).1 = s := by
  rcases splitext_cases s with he | ⟨i, hi, he⟩
  · rw [he]
  · rw [he] at h ⊢
    have h0 : (s.drop i).length = 0 := by
      have : (List.take i s, List.drop i s).2 = s.drop i := rfl
      rw [this] at h
      rw [h]
      rfl
    rw [List.length_drop] at h0
    omega

theorem mem_pySliceTo {s : List Char} {k : Int} {c : Char}
    (h : c ∈ pySliceTo s k) : c ∈ s := by
  unfold pySliceTo at h
  by_cases hk : 0 ≤ k
  · rw [if_pos hk] at h; exact (List.take_sublist _ s).mem h
  · rw [if_neg hk] at h; exact (List.take_sublist _ s).mem h

theorem mem_sanitize_filename {s : List Char} {c : Char}
    (h : c ∈ sanitize_filename s) : c ∈ sanitizeCore s := by
  unfold sanitize_filename at h
  by_cases hlen : 255 < (sanitizeCore s).length
  · rw [if_pos hlen] at h
    rcases List.mem_append.mp h with h1 | h2
    · exact mem_splitext_fst (mem_pySliceTo h1)
    · exact mem_splitext_snd h2
  · rw [if_neg hlen] at h
    exact h

/-- The property that the C10 claim asserts of every output of
`sanitize_filename`: non-empty, free of the dangerous characters, free of
control characters below code point 32, and without leading or trailing
dots or spaces. -/
def filenameSanitized (r : List Char) : Prop :=
  r ≠ [] ∧ (∀ c ∈ r, isDangerousChar c = false) ∧ (∀ c ∈ r, 32 ≤ c.toNat) ∧
  (∀ a, r.head? = some a → isDotOrSpace a = false) ∧
  (∀ a, r.getLast? = some a → isDotOrSpace a = false)

theorem sanitize_filename_ne_nil (s : List Char) : sanitize_filename s ≠ [] := by
  unfold sanitize_filename
  by_cases hlen : 255 < (sanitizeCore s).length
  · rw [if_pos hlen]
    intro hcontra
    rcases List.append_eq_nil.mp hcontra with ⟨h1, h2⟩
    have hfst := splitext_snd_nil h2
    rw [h2] at h1
    unfold pySliceTo at h1
    rw [if_pos (by simp)] at h1
    rcases List.take_eq_nil_iff.mp h1 with h3 | h3
    · simp at h3
    · rw [hfst] at h3
      rw [h3] at hlen
      simp at hlen
  · rw [if_neg hlen]
    exact sanitizeCore_ne_nil s

/-! ## Claim C10: sanitize_filename safety -/

/-- The concrete input on which the C10 claim fails: 254 `'a'`s, a space,
then ten `'b'`s.  It is clean except for its length (265 characters), so
the 255-limit truncation `name[:255-len(ext)] + ext` cuts it right after
the interior space, leaving a trailing space. -/
def c10FailingInput : List Char :=
  List.replicate 254 'a' ++ ' ' :: List.replicate 10 'b'

set_option maxRecDepth 100000 in
/-- Claim C10 is false as stated: on `c10FailingInput` the sanitized result
ends in a space, because the final 255-character truncation can reintroduce
a trailing space that the earlier strip stage had no chance to remove. -/
theorem C10_counterexample : ¬ filenameSanitized (sanitize_filename c10FailingInput) := by
  intro h
  have hl : (sanitize_filename c10FailingInput).getLast? = some ' ' := by decide
  have := h.2.2.2.2 ' ' hl
  exact absurd this (by decide)

/-- Claim C10 (amended): for every input, `sanitize_filename` returns a
non-empty name containing no dangerous character and no control character
below code point 32; and whenever the sanitized form does not exceed the
255-character limit (so the truncation step does not fire), the result also
has no leading or trailing dots or spaces.  (Truncation of over-long names
can reintroduce a trailing space, or a leading dot when the extension part
alone exceeds the limit.) -/
theorem C10_sanitize_filename_amended (s : List Char) :
    sanitize_filename s ≠ [] ∧
    (∀ c ∈ sanitize_filename s, isDangerousChar c = false ∧ 32 ≤ c.toNat) ∧
    ((sanitizeCore s).length ≤ 255 →
      (∀ a, (sanitize_filename s).head? = some a → isDotOrSpace a = false) ∧
      (∀ a, (sanitize_filename s).getLast? = some a → isDotOrSpace a = false)) := by
  refine ⟨sanitize_filename_ne_nil s, ?_, ?_⟩
  · intro c hc
    exact mem_sanitizeCore (mem_sanitize_filename hc)
  · intro h255
    have heq : sanitize_filename s = sanitizeCore s := by
      unfold sanitize_filename
      rw [if_neg (by omega)]
    rw [heq]
    exact ⟨sanitizeCore_head s, sanitizeCore_getLast s⟩

/-- Witness for `C10_sanitize_filename_amended` at the concrete input
`"my<file>.jpg"`: the truncation hypothesis holds and the boundary
properties follow. -/
theorem C10_witness :
    (sanitizeCore "my<file>.jpg".data).length ≤ 255 ∧
    ((∀ a, (sanitize_filename "my<file>.jpg".data).head? = some a →
        isDotOrSpace a = false) ∧
     (∀ a, (sanitize_filename "my<file>.jpg".data).getLast? = some a →
        isDotOrSpace a = false)) :=
  ⟨by decide, (C10_sanitize_filename_amended "my<file>.jpg".data).2.2 (by decide)⟩

/-! ## Datetimes -/

/-- A Python `datetime` (always timezone-aware UTC in this code base), as its
field tuple.  Comparison of aware datetimes with equal offsets is
lexicographic on these fields. -/
structure PyDateTime where
  year : Nat
  month : Nat
  day : Nat
  hour : Nat
  minute : Nat
  second : Nat
  microsecond : Nat
deriving DecidableEq, Repr

/-- Python `<=` on two UTC datetimes: lexicographic field comparison. -/
def dtLe (a b : PyDateTime) : Bool :=
  if a.year ≠ b.year then a.year < b.year
  else if a.month ≠ b.month then a.month < b.month
  else if a.day ≠ b.day then a.day < b.day
  else if a.hour ≠ b.hour then a.hour < b.hour
  else if a.minute ≠ b.minute then a.minute < b.minute
  else if a.second ≠ b.second then a.second < b.second
  else a.microsecond ≤ b.microsecond

set_option maxHeartbeats 1600000 in
theorem dtLe_total (a b : PyDateTime) : dtLe a b = true ∨ dtLe b a = true := by
  unfold dtLe
  split_ifs <;> simp only [decide_eq_true_eq] <;> omega

/-! ## Claim C1: choose_best_date -/

/-- `MetadataExtractor.choose_best_date` (and the identical
`PhotoExporter._choose_best_date`): with both EXIF and XMP present the
earlier wins (`exif_date <= xmp_date` keeps EXIF), with one present that one
wins, and with neither the file date is used.  The returned tag is the
winning source name. -/
def choose_best_date (exif_date xmp_date : Option PyDateTime)
    (file_date : PyDateTime) : PyDateTime × List Char :=
  match exif_date, xmp_date with
  | some e, some x => if dtLe e x then (e, "exif".data) else (x, "xmp".data)
  | some e, none => (e, "exif".data)
  | none, some x => (x, "xmp".data)
  | none, none => (file_date, "file".data)

/-- Claim C1: for every pair of optional EXIF/XMP timestamps and every file
timestamp, `choose_best_date` returns the earlier of EXIF and XMP with the
matching tag when both are present (EXIF winning ties), the single present
one with its tag, and the file date tagged `file` when neither is present. -/
theorem C1_choose_best_date (e x f : PyDateTime) :
    ((choose_best_date (some e) (some x) f).1 = e ∨
      (choose_best_date (some e) (some x) f).1 = x) ∧
    dtLe (choose_best_date (some e) (some x) f).1 e = true ∧
    dtLe (choose_best_date (some e) (some x) f).1 x = true ∧
    (dtLe e x = true →
      choose_best_date (some e) (some x) f = (e, "exif".data)) ∧
    (dtLe e x = false →
      choose_best_date (some e) (some x) f = (x, "xmp".data)) ∧
    choose_best_date (some e) none f = (e, "exif".data) ∧
    choose_best_date none (some x) f = (x, "xmp".data) ∧
    choose_best_date none none f = (f, "file".data) := by
  have hrefl : ∀ d : PyDateTime, dtLe d d = true := by
    intro d; unfold dtLe; simp
  by_cases hle : dtLe e x = true
  · refine ⟨?_, ?_, ?_, ?_, ?_, rfl, rfl, rfl⟩ <;>
      simp [choose_best_date, hle, hrefl]
  · have hxe : dtLe x e = true := by
      rcases dtLe_total e x with h | h
      · exact absurd h hle
      · exact h
    refine ⟨?_, ?_, ?_, ?_, ?_, rfl, rfl, rfl⟩ <;>
      simp [choose_best_date, hle, hxe, hrefl]

/-- Witness for `C1_choose_best_date`: concrete EXIF-earlier, tie, and
XMP-earlier instances. -/
theorem C1_witness :
    choose_best_date (some ⟨2021, 1, 1, 0, 0, 0, 0⟩)
        (some ⟨2022, 1, 1, 0, 0, 0, 0⟩) ⟨2023, 1, 1, 0, 0, 0, 0⟩ =
      (⟨2021, 1, 1, 0, 0, 0, 0⟩, "exif".data) ∧
    choose_best_date (some ⟨2021, 1, 1, 0, 0, 0, 0⟩)
        (some ⟨2021, 1, 1, 0, 0, 0, 0⟩) ⟨2023, 1, 1, 0, 0, 0, 0⟩ =
      (⟨2021, 1, 1, 0, 0, 0, 0⟩, "exif".data) ∧
    choose_best_date (some ⟨2022, 1, 1, 0, 0, 0, 0⟩)
        (some ⟨2021, 1, 1, 0, 0, 0, 0⟩) ⟨2023, 1, 1, 0, 0, 0, 0⟩ =
      (⟨2021, 1, 1, 0, 0, 0, 0⟩, "xmp".data) :=
  ⟨((C1_choose_best_date ⟨2021, 1, 1, 0, 0, 0, 0⟩ ⟨2022, 1, 1, 0, 0, 0, 0⟩
      ⟨2023, 1, 1, 0, 0, 0, 0⟩).2.2.2.1) (by decide),
   ((C1_choose_best_date ⟨2021, 1, 1, 0, 0, 0, 0⟩ ⟨2021, 1, 1, 0, 0, 0, 0⟩
      ⟨2023, 1, 1, 0, 0, 0, 0⟩).2.2.2.1) (by decide),
   ((C1_choose_best_date ⟨2022, 1, 1, 0, 0, 0, 0⟩ ⟨2021, 1, 1, 0, 0, 0, 0⟩
      ⟨2023, 1, 1, 0, 0, 0, 0⟩).2.2.2.2.1) (by decide)⟩

/-! ## Claim C9: invalid records never carry a creation date -/

/-- `PhotoMetadata` of `src/core/metadata_extractor.py`: note the dataclass
defaults `creation_date=None`, `date_source='unknown'`, `is_valid=False`. -/
structure MPhotoMetadata where
  original_path : List Char
  original_filename : List Char
  file_extension : List Char
  creation_date : Option PyDateTime := none
  date_source : List Char := "unknown".data
  is_valid : Bool := false
  error_message : Option (List Char) := none

/-- `PhotoMetadata` of `src/core/export_photos.py`: here `creation_date`,
`date_source`, `file_size` and `file_extension` have no default and
`is_valid` defaults to `True`. -/
structure EPhotoMetadata where
  original_path : List Char
  original_filename : List Char
  creation_date : Option PyDateTime
  date_source : List Char
  file_size : Nat
  file_extension : List Char
  is_valid : Bool := true
  error_message : Option (List Char) := none

/-- The outcomes of the I/O performed by one metadata-extraction call:
the path/name/extension of the file, whether the security check and the
format check pass, the (error-swallowed) results of the EXIF and XMP
extractors, the file modification date (never absent), the file size, and
whether an unexpected exception fires inside the surrounding `try` block. -/
structure PhotoEnv where
  photoPath : List Char
  photoName : List Char
  ext : List Char
  fileSize : Nat
  securityOk : Bool
  supported : Bool
  exifOutcome : Option PyDateTime
  xmpOutcome : Option PyDateTime
  fileDate : PyDateTime
  fatal : Option (List Char)

/-- `MetadataExtractor.extract_metadata`: unsupported formats produce an
invalid record with no date; the successful path resolves the date through
`choose_best_date` and marks the record valid; any unexpected exception
produces an invalid record with no date and an error message. -/
def extract_metadata (env : PhotoEnv) : MPhotoMetadata :=
  match env.fatal with
  | some e =>
    { original_path := env.photoPath, original_filename := env.photoName,
      file_extension := env.ext, is_valid := false, error_message := some e }
  | none =>
    if env.supported then
      { original_path := env.photoPath, original_filename := env.photoName,
        file_extension := env.ext,
        creation_date := some (choose_best_date env.exifOutcome env.xmpOutcome
          env.fileDate).1,
        date_source := (choose_best_date env.exifOutcome env.xmpOutcome
          env.fileDate).2,
        is_valid := true }
    else
      { original_path := env.photoPath, original_filename := env.photoName,
        file_extension := env.ext, is_valid := false,
        error_message := some ("Unsupported format: ".data ++ env.ext) }

/-- `PhotoExporter._process_photo_file`: a failed security validation or an
unsupported format returns `None`; an unexpected exception returns an
invalid record with `creation_date=None` and `date_source='error'`; the
successful path resolves the date and relies on the `is_valid=True`
default. -/
def processPhotoFile (env : PhotoEnv) : Option EPhotoMetadata :=
  if !env.securityOk then none
  else
    match env.fatal with
    | some e =>
      some { original_path := env.photoPath, original_filename := env.photoName,
             creation_date := none, date_source := "error".data, file_size := 0,
             file_extension := env.ext, is_valid := false,
             error_message := some e }
    | none =>
      if !env.supported then none
      else
        some { original_path := env.photoPath,
               original_filename := env.photoName,
               creation_date := some (choose_best_date env.exifOutcome
                 env.xmpOutcome env.fileDate).1,
               date_source := (choose_best_date env.exifOutcome env.xmpOutcome
                 env.fileDate).2,
               file_size := env.fileSize, file_extension := env.ext }

/-- `PhotoExporter._process_photo_worker`: same record construction as
`_process_photo_file` but with no security or format gate, always
returning a record. -/
def processPhotoWorker (env : PhotoEnv) : EPhotoMetadata :=
  match env.fatal with
  | some e =>
    { original_path := env.photoPath, original_filename := env.photoName,
      creation_date := none, date_source := "error".data, file_size := 0,
      file_extension := env.ext, is_valid := false, error_message := some e }
  | none =>
    { original_path := env.photoPath, original_filename := env.photoName,
      creation_date := some (choose_best_date env.exifOutcome env.xmpOutcome
        env.fileDate).1,
      date_source := (choose_best_date env.exifOutcome env.xmpOutcome
        env.fileDate).2,
      file_size := env.fileSize, file_extension := env.ext }

/-- Claim C9: on every extraction path — `extract_metadata`,
`_process_photo_file`, `_process_photo_worker` — a record with
`is_valid=False` carries no `creation_date`. -/
theorem C9_invalid_no_creation_date (env : PhotoEnv) :
    ((extract_metadata env).is_valid = false →
      (extract_metadata env).creation_date = none) ∧
    (∀ m, processPhotoFile env = some m → m.is_valid = false →
      m.creation_date = none) ∧
    ((processPhotoWorker env).is_valid = false →
      (processPhotoWorker env).creation_date = none) := by
  refine ⟨?_, ?_, ?_⟩
  · intro hinv
    unfold extract_metadata at hinv ⊢
    rcases hfat : env.fatal with _ | e
    · rw [hfat] at hinv
      by_cases hs : env.supported
      · simp [hs] at hinv
      · simp [hs]
    · rfl
  · intro m hm hinv
    unfold processPhotoFile at hm
    by_cases hsec : env.securityOk
    · simp only [hsec, Bool.not_true, Bool.false_eq_true, reduceIte] at hm
      rcases hfat : env.fatal with _ | e
      · rw [hfat] at hm
        by_cases hs : env.supported
        · simp only [hs, Bool.not_true, Bool.false_eq_true, reduceIte,
            Option.some.injEq] at hm
          rw [← hm] at hinv
          simp at hinv
        · simp [hs] at hm
      · rw [hfat] at hm
        simp only [Option.some.injEq] at hm
        rw [← hm]
    · simp [hsec] at hm
  · intro hinv
    unfold processPhotoWorker at hinv ⊢
    rcases hfat : env.fatal with _ | e
    · rw [hfat] at hinv
      simp at hinv
    · rfl

/-- Witness for `C9_invalid_no_creation_date`: an environment whose
processing raises an unexpected exception yields invalid records with no
creation date on all three paths. -/
theorem C9_witness :
    ((extract_metadata
        ⟨"/p/a.jpg".data, "a.jpg".data, ".jpg".data, 7, true, true, none, none,
          ⟨2023, 6, 15, 10, 0, 0, 0⟩, some "boom".data⟩).is_valid = false ∧
      (extract_metadata
        ⟨"/p/a.jpg".data, "a.jpg".data, ".jpg".data, 7, true, true, none, none,
          ⟨2023, 6, 15, 10, 0, 0, 0⟩, some "boom".data⟩).creation_date = none) ∧
    ((processPhotoWorker
        ⟨"/p/a.jpg".data, "a.jpg".data, ".jpg".data, 7, true, true, none, none,
          ⟨2023, 6, 15, 10, 0, 0, 0⟩, some "boom".data⟩).is_valid = false ∧
      (processPhotoWorker
        ⟨"/p/a.jpg".data, "a.jpg".data, ".jpg".data, 7, true, true, none, none,
          ⟨2023, 6, 15, 10, 0, 0, 0⟩, some "boom".data⟩).creation_date = none) :=
  ⟨⟨by decide,
    (C9_invalid_no_creation_date
      ⟨"/p/a.jpg".data, "a.jpg".data, ".jpg".data, 7, true, true, none, none,
        ⟨2023, 6, 15, 10, 0, 0, 0⟩, some "boom".data⟩).1 (by decide)⟩,
   ⟨by decide,
    (C9_invalid_no_creation_date
      ⟨"/p/a.jpg".data, "a.jpg".data, ".jpg".data, 7, true, true, none, none,
        ⟨2023, 6, 15, 10, 0, 0, 0⟩, some "boom".data⟩).2.2 (by decide)⟩⟩

/-! ## Claim C2: content-hash duplicate detection -/

/-- `config.FileFormats.IMAGE_FORMATS` (also
`PhotoExporter.SUPPORTED_IMAGE_FORMATS`). -/
def IMAGE_FORMATS : List (List Char) :=
  [".heic".data, ".jpg".data, ".jpeg".data, ".png".data, ".tiff".data,
   ".tif".data, ".raw".data, ".cr2".data, ".nef".data, ".arw".data]

/-- `config.FileFormats.VIDEO_FORMATS` (also
`PhotoExporter.SUPPORTED_VIDEO_FORMATS`). -/
def VIDEO_FORMATS : List (List Char) :=
  [".mov".data, ".mp4".data, ".avi".data, ".mkv".data, ".m4v".data]

/-- `DuplicateHandler._get_file_type_category`: membership of the
lower-cased extension in the configured image (then video) format sets. -/
def getFileTypeCategory (ext : List Char) : List Char :=
  if ext ∈ IMAGE_FORMATS then "image".data
  else if ext ∈ VIDEO_FORMATS then "video".data
  else "other".data

/-- One input file of `DuplicateHandler.detect_duplicates`: its path (the
identity used in lists), its final name component, its lower-cased suffix,
its size, and its byte content — `none` models a file whose read/hash
raises, which switches that file to the filename-based fallback key. -/
structure PFile where
  path : List Char
  name : List Char
  ext : List Char
  fileSize : Nat
  content : Option (List Nat)
deriving DecidableEq, Repr

/-- The composite dictionary key of `detect_duplicates`.  The source builds
the strings `f"{md5(bytes).hexdigest()}_{category}"` and, on hash failure,
`f"{filename}_{category}"`; MD5 is treated as injective on contents
(collisions are ignored as negligible, as the spec states), a hex digest
has fixed length 32 so the digest/category split is unambiguous, and the
negligible case of a plain filename colliding with a 32-character digest is
modelled by keeping the two key families apart. -/
inductive PKey where
  | hashKey (content : List Nat) (cat : List Char)
  | nameKey (nm : List Char) (cat : List Char)
deriving DecidableEq, Repr

/-- The composite key computed for one file inside the
`detect_duplicates` loop. -/
def keyOf (f : PFile) : PKey :=
  match f.content with
  | some c => PKey.hashKey c (getFileTypeCategory f.ext)
  | none => PKey.nameKey f.name (getFileTypeCategory f.ext)

/-- Python `dict` lookup on an insertion-ordered association list. -/
def alGet {κ α : Type} [DecidableEq κ] : List (κ × α) → κ → Option α
  | [], _ => none
  | (k, v) :: rest, k0 => if k0 = k then some v else alGet rest k0

/-- Python `dict` assignment: replace in place if present, append if new. -/
def alSet {κ α : Type} [DecidableEq κ] : List (κ × α) → κ → α → List (κ × α)
  | [], k0, v0 => [(k0, v0)]
  | (k, v) :: rest, k0, v0 =>
    if k0 = k then (k, v0) :: rest else (k, v) :: alSet rest k0 v0

theorem alGet_alSet_self {κ α : Type} [DecidableEq κ]
    (d : List (κ × α)) (k : κ) (v : α) : alGet (alSet d k v) k = some v := by
  induction d with
  | nil => simp [alSet, alGet]
  | cons kv rest ih =>
    obtain ⟨k1, v1⟩ := kv
    by_cases h : k = k1
    · simp [alSet, alGet, h]
    · simp [alSet, alGet, h, ih]

theorem alGet_alSet_ne {κ α : Type} [DecidableEq κ]
    (d : List (κ × α)) (k k' : κ) (v : α) (hne : k' ≠ k) :
    alGet (alSet d k v) k' = alGet d k' := by
  induction d with
  | nil => simp [alSet, alGet, hne]
  | cons kv rest ih =>
    obtain ⟨k1, v1⟩ := kv
    by_cases h : k = k1
    · subst h
      simp [alSet, alGet, hne]
    · by_cases h' : k' = k1
      · simp [alSet, alGet, h, h']
      · simp [alSet, alGet, h, h', ih]

/-- One iteration of the `detect_duplicates` loop over
`(seen_files, duplicates)`: compute the composite key; if seen, open (or
grow) the duplicate group, first seeding it with the previously seen file;
otherwise remember the file as the first occurrence. -/
def detectStep (acc : List (PKey × PFile) × List (PKey × List PFile))
    (f : PFile) : List (PKey × PFile) × List (PKey × List PFile) :=
  match alGet acc.1 (keyOf f) with
  | some firstF =>
    match alGet acc.2 (keyOf f) with
    | none => (acc.1, alSet acc.2 (keyOf f) [firstF, f])
    | some l => (acc.1, alSet acc.2 (keyOf f) (l ++ [f]))
  | none => (alSet acc.1 (keyOf f) f, acc.2)

/-- `DuplicateHandler.detect_duplicates`: fold the loop over the input
files in traversal order and return the duplicates dictionary. -/
def detect_duplicates (files : List PFile) : List (PKey × List PFile) :=
  (files.foldl detectStep ([], [])).2

/-- Loop invariant of `detect_duplicates`: `seen_files` holds the first
occurrence of every key of the processed prefix, and `duplicates` holds,
for exactly the keys with at least two occurrences, all their occurrences
in order. -/
def DetInv (processed : List PFile) (seen : List (PKey × PFile))
    (dups : List (PKey × List PFile)) : Prop :=
  ∀ k : PKey,
    alGet seen k = (processed.filter (fun f => keyOf f = k)).head? ∧
    alGet dups k =
      (if 2 ≤ (processed.filter (fun f => keyOf f = k)).length
       then some (processed.filter (fun f => keyOf f = k)) else none)

theorem detectStep_inv {processed : List PFile} {seen : List (PKey × PFile)}
    {dups : List (PKey × List PFile)} (f : PFile)
    (h : DetInv processed seen dups) :
    DetInv (processed ++ [f]) (detectStep (seen, dups) f).1
      (detectStep (seen, dups) f).2 := by
  intro k
  have hk := h k
  by_cases hkey : keyOf f = k
  · subst hkey
    have hfilter :
        (processed ++ [f]).filter (fun g => keyOf g = keyOf f) =
          processed.filter (fun g => keyOf g = keyOf f) ++ [f] := by
      rw [List.filter_append]
      simp
    rcases hseen : alGet seen (keyOf f) with _ | firstF
    · -- first occurrence of this key
      have hempty : processed.filter (fun g => keyOf g = keyOf f) = [] := by
        have := hk.1
        rw [hseen] at this
        exact (List.head?_eq_none_iff).mp this.symm
      have hstep : detectStep (seen, dups) f =
          (alSet seen (keyOf f) f, dups) := by
        unfold detectStep
        rw [hseen]
      rw [hstep, hfilter, hempty]
      constructor
      · simp [alGet_alSet_self]
      · have := hk.2
        rw [hempty] at this
        simpa using this
    · -- key already seen
      have hhead : (processed.filter (fun g => keyOf g = keyOf f)).head? =
          some firstF := by
        have := hk.1
        rw [hseen] at this
        exact this.symm
      obtain ⟨l, hl⟩ : ∃ l, processed.filter (fun g => keyOf g = keyOf f) =
          firstF :: l := by
        rcases hc : processed.filter (fun g => keyOf g = keyOf f) with _ | ⟨a, t⟩
        · rw [hc] at hhead; simp at hhead
        · rw [hc] at hhead
          simp at hhead
          exact ⟨t, by rw [hhead]⟩
      rcases hdup : alGet dups (keyOf f) with _ | dl
      · -- group does not exist yet: previous count is exactly one
        have hone : processed.filter (fun g => keyOf g = keyOf f) =
            [firstF] := by
          have := hk.2
          rw [hdup] at this
          by_cases hlen : 2 ≤ (processed.filter (fun g => keyOf g = keyOf f)).length
          · rw [if_pos hlen] at this; simp at this
          · rw [hl] at hlen ⊢
            have hc : (firstF :: l).length = l.length + 1 := List.length_cons ..
            have : l = [] := List.length_eq_zero.mp (by omega)
            rw [this]
        have hstep : detectStep (seen, dups) f =
            (seen, alSet dups (keyOf f) [firstF, f]) := by
          unfold detectStep
          rw [hseen, hdup]
        rw [hstep, hfilter, hone]
        constructor
        · have := hk.1
          rw [hone] at this
          simpa using this
        · simp [alGet_alSet_self]
      · -- group exists: previous count at least two, group equals filter
        have htwo : 2 ≤ (processed.filter (fun g => keyOf g = keyOf f)).length ∧
            dl = processed.filter (fun g => keyOf g = keyOf f) := by
          have := hk.2
          rw [hdup] at this
          by_cases hlen : 2 ≤ (processed.filter (fun g => keyOf g = keyOf f)).length
          · rw [if_pos hlen] at this
            exact ⟨hlen, Option.some.inj this⟩
          · rw [if_neg hlen] at this; simp at this
        have hstep : detectStep (seen, dups) f =
            (seen, alSet dups (keyOf f) (dl ++ [f])) := by
          unfold detectStep
          rw [hseen, hdup]
        rw [hstep, hfilter]
        constructor
        · rw [hl]
          simpa using hseen
        · rw [htwo.2, alGet_alSet_self]
          rw [if_pos (by simp; omega)]
  · -- a different key: nothing changes for k
    have hfilter :
        (processed ++ [f]).filter (fun g => keyOf g = k) =
          processed.filter (fun g => keyOf g = k) := by
      rw [List.filter_append]
      simp [hkey]
    rw [hfilter]
    rcases hseen : alGet seen (keyOf f) with _ | firstF <;>
      rcases hdup : alGet dups (keyOf f) with _ | dl <;>
      · unfold detectStep
        rw [hseen]
        rw [hdup]
        refine ⟨?_, ?_⟩ <;>
          simp [alGet_alSet_ne _ _ _ _ (fun he => hkey he.symm), hk.1, hk.2]

theorem detect_go :
    ∀ (files processed : List PFile) (seen : List (PKey × PFile))
      (dups : List (PKey × List PFile)), DetInv processed seen dups →
      DetInv (processed ++ files)
        (files.foldl detectStep (seen, dups)).1
        (files.foldl detectStep (seen, dups)).2 := by
  intro files
  induction files with
  | nil => intro processed seen dups h; simpa using h
  | cons f fs ih =>
    intro processed seen dups h
    have hstep := detectStep_inv f h
    have := ih (processed ++ [f]) (detectStep (seen, dups) f).1
      (detectStep (seen, dups) f).2 hstep
    rw [List.append_assoc] at this
    simpa [List.foldl_cons] using this

theorem detect_group (files : List PFile) (k : PKey) :
    alGet (detect_duplicates files) k =
      (if 2 ≤ (files.filter (fun f => keyOf f = k)).length
       then some (files.filter (fun f => keyOf f = k)) else none) := by
  have base : DetInv [] [] [] := by
    intro k
    constructor <;> simp [alGet]
  have h := detect_go files [] [] [] base
  simpa [detect_duplicates] using (h k).2

theorem two_le_length_of_two_mem {α : Type} {l : List α} {a b : α}
    (ha : a ∈ l) (hb : b ∈ l) (hne : a ≠ b) : 2 ≤ l.length := by
  obtain ⟨s, t, rfl⟩ := List.append_of_mem ha
  rcases List.mem_append.mp hb with hb1 | hb2
  · have hs : 0 < s.length :=
      List.length_pos.mpr (fun hnil => by subst hnil; simp at hb1)
    simp [List.length_append]
    omega
  · rcases List.mem_cons.mp hb2 with he | hm
    · exact absurd he.symm hne
    · have ht : 0 < t.length :=
        List.length_pos.mpr (fun hnil => by subst hnil; simp at hm)
      simp [List.length_append]
      omega

/-- Claim C2: two distinct input files with readable identical byte content
and the same file-type category always end up together in one duplicate
group, whatever their names, paths or positions; and two files with
identical bytes but different categories never share a group. -/
theorem C2_detect_duplicates (files : List PFile) (f g : PFile)
    (hf : f ∈ files) (hg : g ∈ files) (hne : f ≠ g) (c cg : List Nat)
    (hcf : f.content = some c) (hcg : g.content = some cg) :
    (c = cg ∧ getFileTypeCategory f.ext = getFileTypeCategory g.ext →
      ∃ gr, alGet (detect_duplicates files) (keyOf f) = some gr ∧
        f ∈ gr ∧ g ∈ gr) ∧
    (c = cg ∧ getFileTypeCategory f.ext ≠ getFileTypeCategory g.ext →
      ∀ k gr, alGet (detect_duplicates files) k = some gr →
        ¬(f ∈ gr ∧ g ∈ gr)) := by
  have hkeyf : keyOf f = PKey.hashKey c (getFileTypeCategory f.ext) := by
    unfold keyOf
    rw [hcf]
  have hkeyg : keyOf g = PKey.hashKey cg (getFileTypeCategory g.ext) := by
    unfold keyOf
    rw [hcg]
  constructor
  · rintro ⟨hc, hcat⟩
    have hkk : keyOf g = keyOf f := by
      rw [hkeyf, hkeyg, hc, hcat]
    have hfmem : f ∈ files.filter (fun x => keyOf x = keyOf f) :=
      List.mem_filter.mpr ⟨hf, by simp⟩
    have hgmem : g ∈ files.filter (fun x => keyOf x = keyOf f) :=
      List.mem_filter.mpr ⟨hg, by simp [hkk]⟩
    have hlen : 2 ≤ (files.filter (fun x => keyOf x = keyOf f)).length :=
      two_le_length_of_two_mem hfmem hgmem hne
    refine ⟨files.filter (fun x => keyOf x = keyOf f), ?_, hfmem, hgmem⟩
    rw [detect_group, if_pos hlen]
  · rintro ⟨hc, hcat⟩ k gr hget ⟨hfg, hgg⟩
    rw [detect_group] at hget
    by_cases hlen : 2 ≤ (files.filter (fun x => keyOf x = k)).length
    · rw [if_pos hlen] at hget
      have hgr := Option.some.inj hget
      rw [← hgr] at hfg hgg
      have hkf : keyOf f = k := by simpa using (List.of_mem_filter hfg)
      have hkg : keyOf g = k := by simpa using (List.of_mem_filter hgg)
      rw [hkeyf] at hkf
      rw [hkeyg] at hkg
      rw [← hkg] at hkf
      exact hcat (PKey.hashKey.injEq .. ▸ hkf).2
    · rw [if_neg hlen] at hget
      simp at hget

/-- The two concrete files of the `C2_detect_duplicates` witness: identical
bytes, same category, different names and directories. -/
def c2FileA : PFile :=
  ⟨"/src/x/A.jpg".data, "A.jpg".data, ".jpg".data, 3, some [10, 20, 30]⟩

def c2FileB : PFile :=
  ⟨"/src/deep/nested/B.jpg".data, "B.jpg".data, ".jpg".data, 3,
    some [10, 20, 30]⟩

/-- Witness for `C2_detect_duplicates`: two same-content `.jpg` files in
different directories land in one group. -/
theorem C2_witness :
    (c2FileA ∈ [c2FileA, c2FileB] ∧ c2FileB ∈ [c2FileA, c2FileB] ∧
      c2FileA ≠ c2FileB ∧ c2FileA.content = some [10, 20, 30] ∧
      c2FileB.content = some [10, 20, 30] ∧
      getFileTypeCategory c2FileA.ext = getFileTypeCategory c2FileB.ext) ∧
    (∃ gr, alGet (detect_duplicates [c2FileA, c2FileB]) (keyOf c2FileA) =
        some gr ∧ c2FileA ∈ gr ∧ c2FileB ∈ gr) :=
  ⟨⟨by decide, by decide, by decide, by decide, by decide, by decide⟩,
    (C2_detect_duplicates [c2FileA, c2FileB] c2FileA c2FileB (by decide)
      (by decide) (by decide) [10, 20, 30] [10, 20, 30] (by decide)
      (by decide)).1 ⟨rfl, by decide⟩⟩

/-! ## Claim C8: preserve_duplicates counts -/

/-- `duplicate_handler.DuplicateStats` (the fields touched by
`_handle_preserve_duplicates`). -/
structure DupStats where
  duplicate_files_found : Nat := 0
  duplicate_files_resolved : Nat := 0
  duplicate_files_preserved : Nat := 0
  duplicate_files_discarded : Nat := 0
  files_skipped_duplicates : Nat := 0
deriving Repr, DecidableEq

/-- One iteration of `DuplicateHandler._handle_preserve_duplicates` over a
duplicate group: append `paths[0]` to the resolved list (`take 1` models
the indexing, which only ever runs on the non-empty groups that
`detect_duplicates` produces), store the whole group in
`duplicates_to_preserve`, count one resolved file, one preserved file when
the group has a second member, and `len(paths) - 2` discarded files when it
has more than two. -/
def handlePreserveStep
    (acc : List PFile × List (PKey × List PFile) × DupStats)
    (grp : PKey × List PFile) :
    List PFile × List (PKey × List PFile) × DupStats :=
  (acc.1 ++ grp.2.take 1,
   alSet acc.2.1 grp.1 grp.2,
   { acc.2.2 with
     duplicate_files_resolved := acc.2.2.duplicate_files_resolved + 1,
     duplicate_files_preserved := acc.2.2.duplicate_files_preserved +
       (if 1 < grp.2.length then 1 else 0),
     duplicate_files_discarded := acc.2.2.duplicate_files_discarded +
       (if 2 < grp.2.length then grp.2.length - 2 else 0) })

/-- `DuplicateHandler._handle_preserve_duplicates`: fold over the duplicate
groups, returning the files resolved for normal placement, the stored
`duplicates_to_preserve` dictionary, and the statistics. -/
def handle_preserve_duplicates (dups : List (PKey × List PFile)) :
    List PFile × List (PKey × List PFile) × DupStats :=
  dups.foldl handlePreserveStep ([], [], {})

/-- The file-selection logic of
`PhotoExporter._process_preserved_duplicates`: for every stored group with
at least two members, `paths[1]` is the one copied into the duplicates
side-area and `paths[2:]` are logged as discarded and never copied. -/
def processPreservedSelection (toPreserve : List (PKey × List PFile)) :
    List PFile × List PFile :=
  toPreserve.foldl
    (fun acc grp =>
      if grp.2.length ≤ 1 then acc
      else (acc.1 ++ (grp.2.drop 1).take 1, acc.2 ++ grp.2.drop 2))
    ([], [])

/-- Claim C8: a duplicate group of size `N ≥ 2` under `preserve_duplicates`
sends exactly its index-0 file to normal placement, copies exactly its
index-1 file into the duplicates side-area, discards its remaining `N - 2`
files, and the handler counts 1 resolved, 1 preserved and `N - 2`
discarded for it — in particular `(1, 1, 0)` for `N = 2`, `(1, 1, 1)` for
`N = 3` and `(1, 1, 3)` for `N = 5`. -/
theorem C8_preserve_duplicates_counts (k : PKey) (p0 p1 : PFile)
    (rest : List PFile) :
    (handle_preserve_duplicates [(k, p0 :: p1 :: rest)]).1 = [p0] ∧
    (handle_preserve_duplicates
        [(k, p0 :: p1 :: rest)]).2.2.duplicate_files_resolved = 1 ∧
    (handle_preserve_duplicates
        [(k, p0 :: p1 :: rest)]).2.2.duplicate_files_preserved = 1 ∧
    (handle_preserve_duplicates
        [(k, p0 :: p1 :: rest)]).2.2.duplicate_files_discarded =
      (p0 :: p1 :: rest).length - 2 ∧
    (processPreservedSelection
        (handle_preserve_duplicates [(k, p0 :: p1 :: rest)]).2.1).1 = [p1] ∧
    (processPreservedSelection
        (handle_preserve_duplicates [(k, p0 :: p1 :: rest)]).2.1).2 = rest := by
  refine ⟨rfl, rfl, ?_, ?_, ?_, ?_⟩
  · simp [handle_preserve_duplicates, handlePreserveStep]
  · simp only [handle_preserve_duplicates, handlePreserveStep, List.foldl_cons,
      List.foldl_nil, List.length_cons]
    split_ifs <;> omega
  · simp [handle_preserve_duplicates, handlePreserveStep, alSet,
      processPreservedSelection]
  · simp [handle_preserve_duplicates, handlePreserveStep, alSet,
      processPreservedSelection]

/-! ## Claim C4: generate_filename uniqueness -/

/-- Decimal rendering of a natural number (Python `str(n)` for `n >= 0`),
written with structural fuel so that it computes by kernel reduction. -/
def natCharsAux : Nat → Nat → List Char
  | 0, _ => []
  | fuel + 1, n =>
    if n < 10 then [Nat.digitChar n]
    else natCharsAux fuel (n / 10) ++ [Nat.digitChar (n % 10)]

/-- Python `str(n)`: `n + 1` fuel always suffices since the argument drops
by a factor of ten per step. -/
def natChars (n : Nat) : List Char := natCharsAux (n + 1) n

/-- Python `s.zfill(k)` for non-negative numeric strings: left-pad with
`'0'` to at least `k` characters. -/
def zfill (k : Nat) (s : List Char) : List Char :=
  List.replicate (k - s.length) '0' ++ s

/-- `strftime('%Y%m%d-%H%M%S')` (the configured `FILENAME_TIMESTAMP`
format) on a datetime: zero-padded year (4), month, day, hour, minute,
second (2 each). -/
def fmtTimestamp (d : PyDateTime) : List Char :=
  zfill 4 (natChars d.year) ++ zfill 2 (natChars d.month) ++
    zfill 2 (natChars d.day) ++
    '-' :: (zfill 2 (natChars d.hour) ++ zfill 2 (natChars d.minute) ++
      zfill 2 (natChars d.second))

/-- `FileOrganizer.generate_filename`: base timestamp, then either true
milliseconds (`microsecond // 1000`, zero-filled to 3) when the timestamp
carries sub-second precision, or the incremented per-base counter from the
`file_timestamps` defaultdict; the assembled name goes through
`sanitize_filename`.  Returns the name and the updated counter state. -/
def generate_filename (counters : List (List Char × Nat)) (d : PyDateTime)
    (ext : List Char) : List Char × List (List Char × Nat) :=
  if 0 < d.microsecond then
    (sanitize_filename (fmtTimestamp d ++
      '-' :: (zfill 3 (natChars (d.microsecond / 1000)) ++ ext)), counters)
  else
    ((sanitize_filename (fmtTimestamp d ++
        '-' :: (zfill 3 (natChars ((alGet counters (fmtTimestamp d)).getD 0 + 1))
          ++ ext))),
     alSet counters (fmtTimestamp d)
       ((alGet counters (fmtTimestamp d)).getD 0 + 1))

/-- A sequence of `generate_filename` calls within one run, threading the
counter state, returning the generated names in order. -/
def runGenerate : List (PyDateTime × List Char) → List (List Char × Nat) →
    List (List Char)
  | [], _ => []
  | (d, ext) :: rest, st =>
    (generate_filename st d ext).1 ::
      runGenerate rest (generate_filename st d ext).2

/-- A timestamp with one true millisecond: `microsecond // 1000 = 1` gives
the millisecond field `001`. -/
def c4SubSecond : PyDateTime := ⟨2023, 6, 15, 10, 0, 0, 1000⟩

/-- The same wall-clock second without sub-second precision: the counter
path also produces `001` on its first use. -/
def c4WholeSecond : PyDateTime := ⟨2023, 6, 15, 10, 0, 0, 0⟩

set_option maxRecDepth 4000 in
/-- Claim C4 is false as stated: two calls in one fresh run whose
timestamps share the truncated-to-second value — one with true sub-second
milliseconds `1000µs`, one without — both return
`20230615-100000-001.jpg`, because the true-millisecond field `001`
collides with the counter value `001`. -/
theorem C4_counterexample :
    fmtTimestamp c4SubSecond = fmtTimestamp c4WholeSecond ∧
    ¬ (runGenerate [(c4SubSecond, ".jpg".data),
        (c4WholeSecond, ".jpg".data)] []).Nodup := by
  constructor
  · decide
  · intro h
    have h2 : (runGenerate [(c4SubSecond, ".jpg".data),
        (c4WholeSecond, ".jpg".data)] []).Nodup →
        ("20230615-100000-001.jpg".data ∉
          ["20230615-100000-001.jpg".data]) := by
      decide
    exact absurd (by decide) (h2 h)

theorem natCharsAux_congr :
    ∀ (n f1 f2 : Nat), n < f1 → n < f2 → natCharsAux f1 n = natCharsAux f2 n := by
  intro n
  induction n using Nat.strong_induction_on with
  | _ n ih =>
    intro f1 f2 h1 h2
    obtain ⟨g1, rfl⟩ : ∃ g1, f1 = g1 + 1 := ⟨f1 - 1, by omega⟩
    obtain ⟨g2, rfl⟩ : ∃ g2, f2 = g2 + 1 := ⟨f2 - 1, by omega⟩
    by_cases h10 : n < 10
    · simp [natCharsAux, h10]
    · have hdiv : n / 10 < n := Nat.div_lt_self (by omega) (by omega)
      have hrec1 : natCharsAux (g1 + 1) n =
          natCharsAux g1 (n / 10) ++ [Nat.digitChar (n % 10)] := by
        simp [natCharsAux, h10]
      have hrec2 : natCharsAux (g2 + 1) n =
          natCharsAux g2 (n / 10) ++ [Nat.digitChar (n % 10)] := by
        simp [natCharsAux, h10]
      rw [hrec1, hrec2, ih (n / 10) hdiv g1 g2 (by omega) (by omega)]

theorem natCharsAux_irrel (fuel n : Nat) (h : n < fuel) :
    natCharsAux fuel n = natChars n :=
  natCharsAux_congr n fuel (n + 1) h (by omega)

theorem natChars_ge10 {n : Nat} (h : 10 ≤ n) :
    natChars n = natChars (n / 10) ++ [Nat.digitChar (n % 10)] := by
  have : natChars n = natCharsAux n (n / 10) ++ [Nat.digitChar (n % 10)] := by
    simp [natChars, natCharsAux, Nat.not_lt.mpr h]
  rw [this, natCharsAux_irrel n (n / 10) (by omega)]

theorem natChars_lt10 {n : Nat} (h : n < 10) :
    natChars n = [Nat.digitChar n] := by
  simp [natChars, natCharsAux, h]

theorem digitChar_bounds : ∀ d : Nat, d < 10 →
    48 ≤ (Nat.digitChar d).toNat ∧ (Nat.digitChar d).toNat ≤ 57 := by decide

theorem mem_natChars_bounds :
    ∀ (n : Nat) (c : Char), c ∈ natChars n →
      48 ≤ c.toNat ∧ c.toNat ≤ 57 := by
  intro n
  induction n using Nat.strong_induction_on with
  | _ n ih =>
    intro c hc
    by_cases h10 : n < 10
    · rw [natChars_lt10 h10] at hc
      simp at hc
      subst hc
      exact digitChar_bounds n h10
    · rw [natChars_ge10 (by omega)] at hc
      rcases List.mem_append.mp hc with h1 | h2
      · exact ih (n / 10) (Nat.div_lt_self (by omega) (by omega)) c h1
      · simp at h2
        subst h2
        exact digitChar_bounds (n % 10) (Nat.mod_lt n (by omega))

theorem natChars_ne_nil (n : Nat) : natChars n ≠ [] := by
  by_cases h10 : n < 10
  · rw [natChars_lt10 h10]; simp
  · rw [natChars_ge10 (by omega)]; simp

theorem natChars_len_le :
    ∀ (k n : Nat), 1 ≤ k → n < 10 ^ k → (natChars n).length ≤ k := by
  intro k
  induction k with
  | zero => intro n hk; omega
  | succ k ih =>
    intro n _ h
    by_cases h10 : n < 10
    · rw [natChars_lt10 h10]
      simp
    · have hk1 : 1 ≤ k := by
        by_contra hc
        have : k = 0 := by omega
        subst this
        simp at h
        omega
      have hdiv : n / 10 < 10 ^ k := by
        rw [Nat.div_lt_iff_lt_mul (by omega : 0 < 10)]
        calc n < 10 ^ (k + 1) := h
          _ = 10 ^ k * 10 := by rw [pow_succ]
      have := ih (n / 10) hk1 hdiv
      rw [natChars_ge10 (by omega)]
      simp [List.length_append]
      omega

theorem mem_zfill {k : Nat} {s : List Char} {c : Char}
    (h : c ∈ zfill k s) : c = '0' ∨ c ∈ s := by
  unfold zfill at h
  rcases List.mem_append.mp h with h1 | h2
  · exact Or.inl (List.eq_of_mem_replicate h1)
  · exact Or.inr h2

theorem mem_zfill_natChars_bounds {k n : Nat} {c : Char}
    (h : c ∈ zfill k (natChars n)) : 48 ≤ c.toNat ∧ c.toNat ≤ 57 := by
  rcases mem_zfill h with h1 | h2
  · subst h1; decide
  · exact mem_natChars_bounds n c h2

theorem zfill_length (k : Nat) (s : List Char) :
    (zfill k s).length = max k s.length := by
  unfold zfill
  simp [List.length_append]
  omega

theorem zfill_ne_nil {k : Nat} {s : List Char} (hk : 1 ≤ k) :
    zfill k s ≠ [] := by
  intro h
  have := congrArg List.length h
  rw [zfill_length] at this
  simp at this
  omega

theorem isDangerousChar_toNat {c : Char} (h : isDangerousChar c = true) :
    c.toNat = 60 ∨ c.toNat = 62 ∨ c.toNat = 58 ∨ c.toNat = 34 ∨
    c.toNat = 47 ∨ c.toNat = 92 ∨ c.toNat = 124 ∨ c.toNat = 63 ∨
    c.toNat = 42 := by
  unfold isDangerousChar at h
  simp only [Bool.or_eq_true, decide_eq_true_eq] at h
  rcases h with ((((((((h|h)|h)|h)|h)|h)|h)|h)|h) <;> subst h <;> decide

theorem isDotOrSpace_toNat {c : Char} (h : isDotOrSpace c = true) :
    c.toNat = 46 ∨ c.toNat = 32 := by
  unfold isDotOrSpace at h
  simp only [Bool.or_eq_true, decide_eq_true_eq] at h
  rcases h with h|h <;> subst h <;> decide

theorem digit_bounds_plain {c : Char} (h1 : 48 ≤ c.toNat) (h2 : c.toNat ≤ 57) :
    isDangerousChar c = false ∧ 32 ≤ c.toNat ∧ isDotOrSpace c = false := by
  refine ⟨?_, by omega, ?_⟩
  · cases hb : isDangerousChar c
    · rfl
    · rcases isDangerousChar_toNat hb with h|h|h|h|h|h|h|h|h <;> omega
  · cases hb : isDotOrSpace c
    · rfl
    · rcases isDotOrSpace_toNat hb with h|h <;> omega

/-- A character that survives every stage of `sanitize_filename` untouched
and is neither a dot nor a space: this is the character class over which
the amended C4 uniqueness statement quantifies extensions. -/
def plainChar (c : Char) : Bool :=
  !isDangerousChar c && decide (32 ≤ c.toNat) && !isDotOrSpace c

theorem dash_plain :
    isDangerousChar '-' = false ∧ 32 ≤ '-'.toNat ∧ isDotOrSpace '-' = false := by
  decide

/-! Explicit three-digit form and injectivity of the millisecond field
`str(c).zfill(3)` for counter values below 1000. -/

theorem pad3_eq_digits {n : Nat} (h : n < 1000) :
    zfill 3 (natChars n) =
      [Nat.digitChar (n / 100), Nat.digitChar (n / 10 % 10),
        Nat.digitChar (n % 10)] := by
  by_cases h10 : n < 10
  · rw [natChars_lt10 h10]
    have e1 : n / 100 = 0 := by omega
    have e2 : n / 10 % 10 = 0 := by omega
    have e3 : n % 10 = n := by omega
    rw [e1, e2, e3]
    rfl
  · by_cases h100 : n < 100
    · rw [natChars_ge10 (by omega), natChars_lt10 (by omega)]
      have e1 : n / 100 = 0 := by omega
      have e2 : n / 10 % 10 = n / 10 := by omega
      rw [e1, e2]
      rfl
    · rw [natChars_ge10 (by omega), natChars_ge10 (by omega),
        natChars_lt10 (by omega), Nat.div_div_eq_div_mul]
      rfl

theorem digitChar_inj :
    ∀ d, d < 10 → ∀ e, e < 10 → Nat.digitChar d = Nat.digitChar e →
      d = e := by decide

theorem pad3_inj {a b : Nat} (ha : a < 1000) (hb : b < 1000)
    (h : zfill 3 (natChars a) = zfill 3 (natChars b)) : a = b := by
  rw [pad3_eq_digits ha, pad3_eq_digits hb] at h
  simp only [List.cons.injEq, and_true] at h
  have e1 := digitChar_inj (a / 100) (by omega) (b / 100) (by omega) h.1
  have e2 := digitChar_inj (a / 10 % 10) (by omega) (b / 10 % 10) (by omega)
    h.2.1
  have e3 := digitChar_inj (a % 10) (by omega) (b % 10) (by omega) h.2.2
  omega

theorem pyStrip_eq_self (p : Char → Bool) (s : List Char)
    (hh : ∀ a, s.head? = some a → p a = false)
    (hl : ∀ a, s.getLast? = some a → p a = false) : pyStrip p s = s := by
  cases s with
  | nil => rfl
  | cons a t =>
    have hpa : p a = false := hh a rfl
    have hd : (a :: t).dropWhile p = a :: t :=
      List.dropWhile_cons_of_neg (by simp [hpa])
    unfold pyStrip
    rw [hd]
    rcases hr : (a :: t).reverse with _ | ⟨b, rb⟩
    · exact absurd (congrArg List.length hr) (by simp)
    · have hb : p b = false := by
        refine hl b ?_
        rw [← List.head?_reverse, hr]
        rfl
      have hback : (b :: rb).reverse = a :: t := by
        rw [← hr, List.reverse_reverse]
      rw [List.dropWhile_cons_of_neg (by simp [hb]), hback]

theorem sanitizeCore_eq_self (s : List Char) (hne : s ≠ [])
    (hmem : ∀ c ∈ s, isDangerousChar c = false ∧ 32 ≤ c.toNat)
    (hh : ∀ a, s.head? = some a → isDotOrSpace a = false)
    (hl : ∀ a, s.getLast? = some a → isDotOrSpace a = false) :
    sanitizeCore s = s := by
  have hclean : cleanedName s = s := by
    unfold cleanedName
    have hmap : s.map (fun c => if isDangerousChar c then '_' else c) = s := by
      have hcc : ∀ c ∈ s,
          (fun c => if isDangerousChar c then '_' else c) c = id c :=
        fun c hc => by simp [(hmem c hc).1]
      rw [List.map_congr_left hcc, List.map_id]
    rw [hmap]
    exact List.filter_eq_self.mpr
      (fun c hc => decide_eq_true (hmem c hc).2)
  have hstrip : pyStrip isDotOrSpace (cleanedName s) = s := by
    rw [hclean]
    exact pyStrip_eq_self _ _ hh hl
  unfold sanitizeCore
  rw [if_neg hne, hstrip, if_neg hne]

theorem sanitize_filename_eq_self (s : List Char) (hne : s ≠ [])
    (hmem : ∀ c ∈ s, isDangerousChar c = false ∧ 32 ≤ c.toNat)
    (hh : ∀ a, s.head? = some a → isDotOrSpace a = false)
    (hl : ∀ a, s.getLast? = some a → isDotOrSpace a = false)
    (hlen : s.length ≤ 255) : sanitize_filename s = s := by
  unfold sanitize_filename
  rw [sanitizeCore_eq_self s hne hmem hh hl, if_neg (by omega)]

/-- The field ranges that every Python `datetime` object satisfies by
construction. -/
def dtFieldsOk (d : PyDateTime) : Prop :=
  1 ≤ d.year ∧ d.year ≤ 9999 ∧ 1 ≤ d.month ∧ d.month ≤ 12 ∧ 1 ≤ d.day ∧
  d.day ≤ 31 ∧ d.hour ≤ 23 ∧ d.minute ≤ 59 ∧ d.second ≤ 59 ∧
  d.microsecond < 1000000

instance : DecidablePred dtFieldsOk := fun d => by
  unfold dtFieldsOk
  infer_instance

theorem fmtTimestamp_length {d : PyDateTime} (h : dtFieldsOk d) :
    (fmtTimestamp d).length = 15 := by
  obtain ⟨h1, h2, h3, h4, h5, h6, h7, h8, h9, _⟩ := h
  have e1 : (natChars d.year).length ≤ 4 :=
    natChars_len_le 4 d.year (by omega) (by norm_num; omega)
  have e2 : (natChars d.month).length ≤ 2 :=
    natChars_len_le 2 d.month (by omega) (by norm_num; omega)
  have e3 : (natChars d.day).length ≤ 2 :=
    natChars_len_le 2 d.day (by omega) (by norm_num; omega)
  have e4 : (natChars d.hour).length ≤ 2 :=
    natChars_len_le 2 d.hour (by omega) (by norm_num; omega)
  have e5 : (natChars d.minute).length ≤ 2 :=
    natChars_len_le 2 d.minute (by omega) (by norm_num; omega)
  have e6 : (natChars d.second).length ≤ 2 :=
    natChars_len_le 2 d.second (by omega) (by norm_num; omega)
  simp [fmtTimestamp, List.length_append, zfill_length]
  omega

theorem fmtTimestamp_ne_nil (d : PyDateTime) : fmtTimestamp d ≠ [] := by
  intro h
  have h4 := congrArg List.length h
  simp [fmtTimestamp, List.length_append, zfill_length] at h4

theorem mem_fmtTimestamp {d : PyDateTime} {c : Char}
    (h : c ∈ fmtTimestamp d) :
    (48 ≤ c.toNat ∧ c.toNat ≤ 57) ∨ c = '-' := by
  unfold fmtTimestamp at h
  simp only [List.append_assoc, List.mem_append, List.mem_cons] at h
  rcases h with h|h|h|h|h|h|h
  · exact Or.inl (mem_zfill_natChars_bounds h)
  · exact Or.inl (mem_zfill_natChars_bounds h)
  · exact Or.inl (mem_zfill_natChars_bounds h)
  · exact Or.inr h
  · exact Or.inl (mem_zfill_natChars_bounds h)
  · exact Or.inl (mem_zfill_natChars_bounds h)
  · exact Or.inl (mem_zfill_natChars_bounds h)

theorem fmtTimestamp_head {d : PyDateTime} {a : Char}
    (h : (fmtTimestamp d).head? = some a) : 48 ≤ a.toNat ∧ a.toNat ≤ 57 := by
  unfold fmtTimestamp at h
  rcases hz : zfill 4 (natChars d.year) with _ | ⟨b, t⟩
  · exact absurd hz (zfill_ne_nil (by omega))
  · rw [hz, List.cons_append] at h
    simp at h
    subst h
    exact mem_zfill_natChars_bounds (hz ▸ List.mem_cons_self b t)

/-- The filename assembled by the counter path of `generate_filename`
before sanitization: base timestamp, dash, three-digit-filled counter,
extension. -/
def msName (base : List Char) (c : Nat) (ext : List Char) : List Char :=
  base ++ '-' :: (zfill 3 (natChars c) ++ ext)

theorem msName_sanitize_id {base : List Char} (hblen : base.length = 15)
    (hbmem : ∀ x ∈ base, (48 ≤ x.toNat ∧ x.toNat ≤ 57) ∨ x = '-')
    (hbhead : ∀ a, base.head? = some a → 48 ≤ a.toNat ∧ a.toNat ≤ 57)
    {c : Nat} (hc : c < 1000) {t : List Char} (ht : t ≠ [])
    (htp : ∀ x ∈ t, plainChar x = true) (htl : t.length ≤ 235) :
    sanitize_filename (msName base c ('.' :: t)) = msName base c ('.' :: t) := by
  have hbne : base ≠ [] := by
    intro h
    rw [h] at hblen
    simp at hblen
  apply sanitize_filename_eq_self
  · intro h
    unfold msName at h
    rcases List.append_eq_nil.mp h with ⟨h1, _⟩
    exact hbne h1
  · intro x hx
    unfold msName at hx
    simp only [List.mem_append, List.mem_cons] at hx
    rcases hx with hx | hx | hx | hx | hx
    · rcases hbmem x hx with hd | hd
      · exact ⟨(digit_bounds_plain hd.1 hd.2).1, (digit_bounds_plain hd.1 hd.2).2.1⟩
      · subst hd
        exact ⟨dash_plain.1, dash_plain.2.1⟩
    · subst hx
      exact ⟨dash_plain.1, dash_plain.2.1⟩
    · have hd := mem_zfill_natChars_bounds hx
      exact ⟨(digit_bounds_plain hd.1 hd.2).1, (digit_bounds_plain hd.1 hd.2).2.1⟩
    · subst hx
      exact ⟨by decide, by decide⟩
    · have := htp x hx
      simp only [plainChar, Bool.and_eq_true, Bool.not_eq_true',
        decide_eq_true_eq] at this
      exact ⟨this.1.1, this.1.2⟩
  · intro a ha
    rcases hf : base with _ | ⟨b, rest⟩
    · exact absurd hf hbne
    · unfold msName at ha
      rw [hf, List.cons_append] at ha
      have hba : b = a := Option.some.inj ha
      rw [← hba]
      have hb := hbhead b (by rw [hf]; rfl)
      exact (digit_bounds_plain hb.1 hb.2).2.2
  · intro a ha
    rcases hr : t.reverse with _ | ⟨b, rb⟩
    · have := congrArg List.length hr
      simp at this
      exact absurd this ht
    · have hbmemt : b ∈ t := by
        rw [← List.mem_reverse, hr]
        exact List.mem_cons_self b rb
      rw [← List.head?_reverse] at ha
      unfold msName at ha
      simp only [List.reverse_append, List.reverse_cons, List.append_assoc,
        hr] at ha
      simp at ha
      subst ha
      have := htp b hbmemt
      simp only [plainChar, Bool.and_eq_true, Bool.not_eq_true',
        decide_eq_true_eq] at this
      exact this.2
  · have hz : (zfill 3 (natChars c)).length = 3 := by
      rw [zfill_length]
      have := natChars_len_le 3 c (by omega) (by norm_num; omega)
      omega
    unfold msName
    simp [List.length_append, hblen, hz]
    omega

theorem runGenerate_counter_formula :
    ∀ (ds : List PyDateTime) (ext base : List Char)
      (st : List (List Char × Nat)),
      (∀ d ∈ ds, d.microsecond = 0) →
      (∀ d ∈ ds, fmtTimestamp d = base) →
      runGenerate (ds.map (fun d => (d, ext))) st =
        (List.range' ((alGet st base).getD 0 + 1) ds.length).map
          (fun c => sanitize_filename (msName base c ext)) := by
  intro ds
  induction ds with
  | nil => intros; rfl
  | cons d rest ih =>
    intro ext base st hmu hbase
    have hmud : d.microsecond = 0 := hmu d (List.mem_cons_self ..)
    have hbd : fmtTimestamp d = base := hbase d (List.mem_cons_self ..)
    have hgen : generate_filename st d ext =
        (sanitize_filename (msName base ((alGet st base).getD 0 + 1) ext),
         alSet st base ((alGet st base).getD 0 + 1)) := by
      unfold generate_filename
      rw [if_neg (by omega), hbd]
      rfl
    have hrest := ih ext base (alSet st base ((alGet st base).getD 0 + 1))
      (fun x hx => hmu x (List.mem_cons_of_mem d hx))
      (fun x hx => hbase x (List.mem_cons_of_mem d hx))
    rw [List.map_cons]
    show (generate_filename st d ext).1 ::
        runGenerate (rest.map (fun d => (d, ext)))
          (generate_filename st d ext).2 = _
    rw [hgen]
    simp only
    rw [hrest, alGet_alSet_self]
    rfl

/-- Claim C4 (amended): within one fresh run, any sequence of at most 999
`generate_filename` calls whose timestamps share the same
truncated-to-second value, all with `microsecond = 0` (the per-second
counter path) and a common extension of the form `'.'` followed by 1–235
sanitizer-neutral characters, returns pairwise distinct filenames.  When a
timestamp carries sub-second precision the guarantee does not hold: a true
millisisecond field can collide with a counter value
(`C4_counterexample`). -/
theorem C4_generate_filename_amended (ds : List PyDateTime)
    (t base : List Char)
    (hok : ∀ d ∈ ds, dtFieldsOk d)
    (hmu : ∀ d ∈ ds, d.microsecond = 0)
    (hbase : ∀ d ∈ ds, fmtTimestamp d = base)
    (hlen : ds.length ≤ 999) (ht : t ≠ [])
    (htp : ∀ x ∈ t, plainChar x = true) (htl : t.length ≤ 235) :
    (runGenerate (ds.map (fun d => (d, '.' :: t))) []).Nodup := by
  rcases ds with _ | ⟨d0, drest⟩
  · simp [runGenerate]
  · have hok0 := hok d0 (List.mem_cons_self ..)
    have hb0 := hbase d0 (List.mem_cons_self ..)
    have hblen : base.length = 15 := by
      rw [← hb0]
      exact fmtTimestamp_length hok0
    have hbmem : ∀ x ∈ base, (48 ≤ x.toNat ∧ x.toNat ≤ 57) ∨ x = '-' := by
      intro x hx
      rw [← hb0] at hx
      exact mem_fmtTimestamp hx
    have hbhead : ∀ a, base.head? = some a → 48 ≤ a.toNat ∧ a.toNat ≤ 57 := by
      intro a ha
      rw [← hb0] at ha
      exact fmtTimestamp_head ha
    rw [runGenerate_counter_formula (d0 :: drest) ('.' :: t) base [] hmu hbase]
    have hget : (alGet ([] : List (List Char × Nat)) base).getD 0 = 0 := rfl
    rw [hget]
    apply List.Nodup.map_on ?_ (List.nodup_range' ..)
    intro x hx y hy hxy
    have hxb : 1 ≤ x ∧ x < 1 + (d0 :: drest).length :=
      List.mem_range'_1.mp hx
    have hyb : 1 ≤ y ∧ y < 1 + (d0 :: drest).length :=
      List.mem_range'_1.mp hy
    have hxlt : x < 1000 := by
      have := hxb.2
      have hl2 : (d0 :: drest).length ≤ 999 := hlen
      omega
    have hylt : y < 1000 := by
      have := hyb.2
      have hl2 : (d0 :: drest).length ≤ 999 := hlen
      omega
    rw [msName_sanitize_id hblen hbmem hbhead hxlt ht htp htl,
      msName_sanitize_id hblen hbmem hbhead hylt ht htp htl] at hxy
    unfold msName at hxy
    have h1 := List.append_cancel_left hxy
    have h2 : zfill 3 (natChars x) ++ '.' :: t =
        zfill 3 (natChars y) ++ '.' :: t := by
      have := List.cons.injEq '-' (zfill 3 (natChars x) ++ '.' :: t) '-'
        (zfill 3 (natChars y) ++ '.' :: t) ▸ h1
      simpa using h1
    have h3 := List.append_cancel_right h2
    exact pad3_inj hxlt hylt h3

/-- Witness for `C4_generate_filename_amended`: three calls on the same
whole-second timestamp with extension `.jpg` give three distinct names. -/
theorem C4_witness :
    ((∀ d ∈ [c4WholeSecond, c4WholeSecond, c4WholeSecond], dtFieldsOk d) ∧
      (∀ d ∈ [c4WholeSecond, c4WholeSecond, c4WholeSecond],
        d.microsecond = 0) ∧
      (∀ d ∈ [c4WholeSecond, c4WholeSecond, c4WholeSecond],
        fmtTimestamp d = fmtTimestamp c4WholeSecond) ∧
      ("jpg".data ≠ ([] : List Char)) ∧
      (∀ x ∈ "jpg".data, plainChar x = true)) ∧
    (runGenerate ([c4WholeSecond, c4WholeSecond, c4WholeSecond].map
        (fun d => (d, '.' :: "jpg".data))) []).Nodup :=
  ⟨⟨by decide, by decide, by decide, by decide, by decide⟩,
    C4_generate_filename_amended [c4WholeSecond, c4WholeSecond, c4WholeSecond]
      "jpg".data (fmtTimestamp c4WholeSecond) (by decide) (by decide)
      (by decide) (by decide) (by decide) (by decide) (by decide)⟩

/-! ## Claim C5: EXIF date extraction -/

/-- `48 <= ord(c) <= 57`: the digit class of the strptime regexes. -/
def isDigitCh (c : Char) : Bool := 48 ≤ c.toNat && c.toNat ≤ 57

/-- Numeric value of a digit character. -/
def digitVal (c : Char) : Nat := c.toNat - 48

/-- Character range test by code point. -/
def inRange (lo hi c : Char) : Bool :=
  lo.toNat ≤ c.toNat && c.toNat ≤ hi.toNat

/-- One two-character regex alternative with its continuation: CPython
strptime compiles each directive to an ordered alternation and the regex
engine backtracks into shorter alternatives when the following literal
fails, which is what continuation-passing `Option.orElse` chains encode. -/
def alt2 {α : Type} (p1 p2 : Char → Bool) (v : Char → Char → Nat)
    (k : Nat → List Char → Option α) : List Char → Option α
  | c1 :: c2 :: rest => if p1 c1 && p2 c2 then k (v c1 c2) rest else none
  | _ => none

/-- One one-character regex alternative with its continuation. -/
def alt1 {α : Type} (p : Char → Bool) (k : Nat → List Char → Option α) :
    List Char → Option α
  | c :: rest => if p c then k (digitVal c) rest else none
  | _ => none

/-- A literal separator character. -/
def expectChar {α : Type} (ch : Char) (k : List Char → Option α) :
    List Char → Option α
  | c :: rest => if c = ch then k rest else none
  | _ => none

/-- The regex `\s` class of CPython `re` on `str` patterns: the exact 29
whitespace code points (tab through carriage return, the information
separators 0x1c-0x1f, space, next line 0x85, no-break space 0xa0, ogham
space 0x1680, the en/em spaces 0x2000-0x200a, line and paragraph
separators 0x2028/0x2029, narrow no-break 0x202f, medium mathematical
0x205f, and ideographic space 0x3000). -/
def isPySpace (c : Char) : Bool :=
  (9 ≤ c.toNat && c.toNat ≤ 13) || (28 ≤ c.toNat && c.toNat ≤ 32) ||
  c.toNat = 133 || c.toNat = 160 || c.toNat = 5760 ||
  (8192 ≤ c.toNat && c.toNat ≤ 8202) || c.toNat = 8232 || c.toNat = 8233 ||
  c.toNat = 8239 || c.toNat = 8287 || c.toNat = 12288

/-- `\s+`: CPython `_strptime.TimeRE` replaces any whitespace run in the
format with `\s+`, so the single space of `'%Y:%m:%d %H:%M:%S'` matches
one or more whitespace characters in the value.  The token that follows
(`%H`) always starts with a digit, which is never whitespace, so the
greedy maximal munch modelled here is equivalent to the regex engine's
backtracking behavior. -/
def expectSpaces {α : Type} (k : List Char → Option α) :
    List Char → Option α
  | c :: rest => if isPySpace c then k (rest.dropWhile isPySpace) else none
  | _ => none

/-- `%m` = `1[0-2]|0[1-9]|[1-9]` (TimeRE). -/
def parseMonth {α : Type} (k : Nat → List Char → Option α)
    (s : List Char) : Option α :=
  alt2 (· = '1') (inRange '0' '2') (fun _ c2 => 10 + digitVal c2) k s <|>
  alt2 (· = '0') (inRange '1' '9') (fun _ c2 => digitVal c2) k s <|>
  alt1 (inRange '1' '9') k s

/-- `%d` = `3[01]|[12]\d|0[1-9]|[1-9]` (TimeRE). -/
def parseDay {α : Type} (k : Nat → List Char → Option α)
    (s : List Char) : Option α :=
  alt2 (· = '3') (inRange '0' '1') (fun _ c2 => 30 + digitVal c2) k s <|>
  alt2 (inRange '1' '2') isDigitCh
    (fun c1 c2 => digitVal c1 * 10 + digitVal c2) k s <|>
  alt2 (· = '0') (inRange '1' '9') (fun _ c2 => digitVal c2) k s <|>
  alt1 (inRange '1' '9') k s

/-- `%H` = `2[0-3]|[0-1]\d|\d` (TimeRE). -/
def parseHour {α : Type} (k : Nat → List Char → Option α)
    (s : List Char) : Option α :=
  alt2 (· = '2') (inRange '0' '3') (fun _ c2 => 20 + digitVal c2) k s <|>
  alt2 (inRange '0' '1') isDigitCh
    (fun c1 c2 => digitVal c1 * 10 + digitVal c2) k s <|>
  alt1 isDigitCh k s

/-- `%M` = `[0-5]\d|\d` (TimeRE). -/
def parseMinute {α : Type} (k : Nat → List Char → Option α)
    (s : List Char) : Option α :=
  alt2 (inRange '0' '5') isDigitCh
    (fun c1 c2 => digitVal c1 * 10 + digitVal c2) k s <|>
  alt1 isDigitCh k s

/-- `%S` = `6[0-1]|[0-5]\d|\d` (TimeRE; 60 and 61 are leap seconds the
regex accepts but the `datetime` constructor later rejects). -/
def parseSecond {α : Type} (k : Nat → List Char → Option α)
    (s : List Char) : Option α :=
  alt2 (· = '6') (inRange '0' '1') (fun _ c2 => 60 + digitVal c2) k s <|>
  alt2 (inRange '0' '5') isDigitCh
    (fun c1 c2 => digitVal c1 * 10 + digitVal c2) k s <|>
  alt1 isDigitCh k s

/-- The regex phase of
`datetime.strptime(value, '%Y:%m:%d %H:%M:%S')`: four year digits, the
five directives above joined by their separators — literal colons, and
`\s+` for the format's space — and the trailing "unconverted data
remains" check (`rest = []`). -/
def strptimeRaw (s : List Char) : Option (Nat × Nat × Nat × Nat × Nat × Nat) :=
  match s with
  | y1 :: y2 :: y3 :: y4 :: rest =>
    if isDigitCh y1 && isDigitCh y2 && isDigitCh y3 && isDigitCh y4 then
      expectChar ':' (parseMonth (fun mo =>
        expectChar ':' (parseDay (fun d =>
          expectSpaces (parseHour (fun h =>
            expectChar ':' (parseMinute (fun mi =>
              expectChar ':' (parseSecond (fun sec tail =>
                if tail = [] then
                  some (((digitVal y1 * 10 + digitVal y2) * 10 +
                    digitVal y3) * 10 + digitVal y4, mo, d, h, mi, sec)
                else none)))))))))) rest
    else none
  | _ => none

/-- Gregorian leap year, as the `datetime` constructor uses it. -/
def isLeapYear (y : Nat) : Bool :=
  y % 4 = 0 && (y % 100 ≠ 0 || y % 400 = 0)

/-- Days in a month, as the `datetime` constructor uses it. -/
def daysInMonth (y m : Nat) : Nat :=
  if m = 2 then (if isLeapYear y then 29 else 28)
  else if m = 4 || m = 6 || m = 9 || m = 11 then 30
  else 31

/-- `datetime.strptime(value, '%Y:%m:%d %H:%M:%S')` followed by
`.replace(tzinfo=timezone.utc)`: the regex phase, then the `datetime`
constructor validation (`MINYEAR = 1`, day within the month, seconds at
most 59 — rejecting the regex's leap seconds).  The result is the naive
field tuple interpreted as UTC. -/
def strptimeYmdHMS (s : List Char) : Option PyDateTime :=
  match strptimeRaw s with
  | none => none
  | some (y, mo, d, h, mi, sec) =>
    if 1 ≤ y ∧ 1 ≤ d ∧ d ≤ daysInMonth y mo ∧ sec ≤ 59 then
      some ⟨y, mo, d, h, mi, sec, 0⟩
    else none

/-- A value stored under an EXIF tag: a string, or a non-string value
(which `extract_exif_date` skips via its `isinstance(value, str)` check). -/
inductive ExifVal where
  | str (s : List Char)
  | nonstr
deriving DecidableEq, Repr

/-- The tag loop of `MetadataExtractor.extract_exif_date`: for each field
of `date_fields` in order, if the tag is present, holds a string, and that
string parses, return the parsed date; a parse failure (`ValueError` +
`continue`) or a non-string value falls through to the next field. -/
def exifFieldLoop (ed : List (List Char × ExifVal)) :
    List (List Char) → Option PyDateTime
  | [] => none
  | f :: rest =>
    match alGet ed f with
    | some (ExifVal.str v) =>
      match strptimeYmdHMS v with
      | some dt => some dt
      | none => exifFieldLoop ed rest
    | some ExifVal.nonstr => exifFieldLoop ed rest
    | none => exifFieldLoop ed rest

/-- `MetadataExtractor.extract_exif_date` after the image container is
open: the source sets `date_fields = ['DateTimeOriginal', 'DateTime']`, so
only those two tags are ever consulted. -/
def extract_exif_date (ed : List (List Char × ExifVal)) : Option PyDateTime :=
  exifFieldLoop ed ["DateTimeOriginal".data, "DateTime".data]

/-- The EXIF record refuting claim C5: only `DateTimeDigitized` is
present, with a perfectly well-formed value. -/
def c5Exif : List (List Char × ExifVal) :=
  [("DateTimeDigitized".data, ExifVal.str "2021:05:05 10:00:00".data)]

set_option maxRecDepth 4000 in
/-- Claim C5 is false as stated: the claimed priority list includes
`DateTimeDigitized`, but `extract_exif_date` consults only
`DateTimeOriginal` and `DateTime`, so a record carrying only a valid
`DateTimeDigitized` — whose value the claimed parser accepts — yields no
date at all. -/
theorem C5_counterexample :
    strptimeYmdHMS "2021:05:05 10:00:00".data =
      some ⟨2021, 5, 5, 10, 0, 0, 0⟩ ∧
    extract_exif_date c5Exif = none := by
  constructor
  · decide
  · decide

/-- Claim C5 (amended): `extract_exif_date` reads the first usable tag in
the priority order `DateTimeOriginal`, then `DateTime` —
`DateTimeDigitized` is never consulted — parsing string values with
`strptime('%Y:%m:%d %H:%M:%S')` interpreted as UTC, falling through to the
next tag on a parse failure, and its result depends only on those two
tags. -/
theorem C5_extract_exif_date_amended (ed : List (List Char × ExifVal)) :
    (∀ v dt, alGet ed "DateTimeOriginal".data = some (ExifVal.str v) →
      strptimeYmdHMS v = some dt → extract_exif_date ed = some dt) ∧
    (∀ v w dt, alGet ed "DateTimeOriginal".data = some (ExifVal.str v) →
      strptimeYmdHMS v = none →
      alGet ed "DateTime".data = some (ExifVal.str w) →
      strptimeYmdHMS w = some dt → extract_exif_date ed = some dt) ∧
    (∀ w dt, alGet ed "DateTimeOriginal".data = none →
      alGet ed "DateTime".data = some (ExifVal.str w) →
      strptimeYmdHMS w = some dt → extract_exif_date ed = some dt) ∧
    (∀ ed2,
      alGet ed2 "DateTimeOriginal".data = alGet ed "DateTimeOriginal".data →
      alGet ed2 "DateTime".data = alGet ed "DateTime".data →
      extract_exif_date ed2 = extract_exif_date ed) := by
  refine ⟨?_, ?_, ?_, ?_⟩
  · intro v dt h1 h2
    simp [extract_exif_date, exifFieldLoop, h1, h2]
  · intro v w dt h1 h2 h3 h4
    simp [extract_exif_date, exifFieldLoop, h1, h2, h3, h4]
  · intro w dt h1 h2 h3
    simp [extract_exif_date, exifFieldLoop, h1, h2, h3]
  · intro ed2 hA hB
    unfold extract_exif_date
    rcases hO : alGet ed "DateTimeOriginal".data with _ | vo <;>
      rcases hT : alGet ed "DateTime".data with _ | vt <;>
      rw [hO] at hA <;> rw [hT] at hB <;>
      simp [exifFieldLoop, hA, hB, hO, hT]

/-- Witness for `C5_extract_exif_date_amended`: with only
`DateTimeOriginal` present the parsed value is returned, and adding a
`DateTimeDigitized` binding does not change the result. -/
theorem C5_witness :
    extract_exif_date
        [("DateTimeOriginal".data,
          ExifVal.str "2019:03:02 08:30:45".data)] =
      some ⟨2019, 3, 2, 8, 30, 45, 0⟩ ∧
    extract_exif_date
        [("DateTimeDigitized".data,
           ExifVal.str "1999:01:01 00:00:00".data),
         ("DateTimeOriginal".data,
           ExifVal.str "2019:03:02 08:30:45".data)] =
      extract_exif_date
        [("DateTimeOriginal".data,
          ExifVal.str "2019:03:02 08:30:45".data)] :=
  ⟨(C5_extract_exif_date_amended
      [("DateTimeOriginal".data,
        ExifVal.str "2019:03:02 08:30:45".data)]).1
      "2019:03:02 08:30:45".data ⟨2019, 3, 2, 8, 30, 45, 0⟩ (by decide)
      (by decide),
   (C5_extract_exif_date_amended
      [("DateTimeOriginal".data,
        ExifVal.str "2019:03:02 08:30:45".data)]).2.2.2
      [("DateTimeDigitized".data, ExifVal.str "1999:01:01 00:00:00".data),
       ("DateTimeOriginal".data, ExifVal.str "2019:03:02 08:30:45".data)]
      (by decide) (by decide)⟩

/-! ## Claim C3: dry-run placement operations -/

/-- A `pathlib.Path` split into its directory part and final component. -/
structure PPath where
  parent : List Char
  name : List Char
deriving DecidableEq, Repr

/-- The rendered path string used for filesystem lookups. -/
def renderPath (p : PPath) : List Char := p.parent ++ '/' :: p.name

/-- `pathlib.PurePath.suffix`: the part of the name from its last dot,
empty when the only dot is leading or trailing. -/
def pySuffix (nm : List Char) : List Char :=
  match lastDotIdx nm with
  | none => []
  | some i => if 0 < i ∧ i < nm.length - 1 then nm.drop i else []

/-- `pathlib.PurePath.stem`: the name without `pySuffix`. -/
def pyStem (nm : List Char) : List Char :=
  match lastDotIdx nm with
  | none => nm
  | some i => if 0 < i ∧ i < nm.length - 1 then nm.take i else nm

/-- `pathlib.PurePath.with_suffix`: replace (or append, when there is
none) the suffix. -/
def withSuffix (p : PPath) (suf : List Char) : PPath :=
  ⟨p.parent, pyStem p.name ++ suf⟩

/-- The filesystem as the list of existing rendered paths (files and
directories). -/
abbrev Fs : Type := List (List Char)

/-- First existing candidate of a probe list. -/
def firstExisting (fs : Fs) : List PPath → Option PPath
  | [] => none
  | q :: rest => if renderPath q ∈ fs then some q else firstExisting fs rest

/-- `FileOrganizer._find_xmp_file`: the four probe patterns in order. -/
def findXmpFile (fs : Fs) (p : PPath) : Option PPath :=
  firstExisting fs
    [withSuffix p (pySuffix p.name ++ ".xmp".data),
     withSuffix p (pySuffix p.name ++ ".XMP".data),
     withSuffix p ".xmp".data,
     withSuffix p ".XMP".data]

/-- `FileOrganizer._find_aae_file`: direct probes, then the
`IMG_<n> -> IMG_O<n>` pattern, then the purely-numeric `<n> -> <n>O`
pattern. -/
def findAaeFile (fs : Fs) (p : PPath) : Option PPath :=
  match firstExisting fs [withSuffix p ".aae".data, withSuffix p ".AAE".data] with
  | some q => some q
  | none =>
    if List.isPrefixOf "IMG_".data (pyStem p.name) then
      firstExisting fs
        [⟨p.parent, "IMG_O".data ++ (pyStem p.name).drop 4 ++ ".aae".data⟩,
         ⟨p.parent, "IMG_O".data ++ (pyStem p.name).drop 4 ++ ".AAE".data⟩]
    else if pyStem p.name ≠ [] ∧ (pyStem p.name).all isDigitCh then
      firstExisting fs
        [⟨p.parent, pyStem p.name ++ "O.aae".data⟩,
         ⟨p.parent, pyStem p.name ++ "O.AAE".data⟩]
    else none

/-- The `while target_path.exists()` loop of
`FileOrganizer._resolve_filename_conflict`, with `fs.length + 1` fuel:
each iteration requires the current candidate to be one of the finitely
many existing paths and the candidates are pairwise distinct, so the fuel
is never exhausted on a well-formed filesystem. -/
def resolveAux (fs : Fs) (dir stem sfx : List Char) :
    Nat → Nat → List Char
  | 0, counter => stem ++ '-' :: (zfill 3 (natChars counter) ++ sfx)
  | fuel + 1, counter =>
    if (dir ++ '/' :: (stem ++ '-' :: (zfill 3 (natChars counter) ++ sfx)))
        ∈ fs then
      resolveAux fs dir stem sfx fuel (counter + 1)
    else stem ++ '-' :: (zfill 3 (natChars counter) ++ sfx)

/-- `FileOrganizer._resolve_filename_conflict`: append `-NNN`
(`f"{counter:03d}"`, counting from 1, stem and suffix taken from the
original target) until the target does not exist. -/
def resolveFilenameConflict (fs : Fs) (dir nm : List Char) : List Char :=
  if (dir ++ '/' :: nm) ∈ fs then
    resolveAux fs dir (pyStem nm) (pySuffix nm) (fs.length + 1) 1
  else nm

/-- The metadata fields `FileOrganizer` placement operations consume. -/
structure OrgMeta where
  original_path : PPath
  file_extension : List Char
  creation_date : Option PyDateTime
  is_valid : Bool
deriving DecidableEq, Repr

/-- One `shutil.copy2` of an associated file when its source was located:
the copy succeeds when the target directory exists (a missing directory
raises, modelled as the failure flag); on success the destination path
appears in the filesystem. -/
def copyOneAssociated (fs : Fs) (found : Option PPath) (dst : List Char)
    (targetDir : List Char) : Fs × Option (List Char) × Bool :=
  match found with
  | none => (fs, none, true)
  | some _ => if targetDir ∈ fs then (fs ++ [dst], some dst, true)
              else (fs, none, false)

/-- `FileOrganizer._copy_associated_files`: copy the located XMP to
`<generated-stem>.xmp`, then the located AAE to `<generated-stem>.aae`;
a raised copy error aborts (propagating to the caller's handler).
Returns the filesystem, the list of file paths written, and whether no
exception was raised. -/
def copyAssociatedFiles (fs : Fs) (orig : PPath)
    (targetDir finalStem : List Char) : Fs × List (List Char) × Bool :=
  match copyOneAssociated fs (findXmpFile fs orig)
      (targetDir ++ '/' :: (finalStem ++ ".xmp".data)) targetDir with
  | (fs1, w1, false) => (fs1, w1.toList, false)
  | (fs1, w1, true) =>
    match copyOneAssociated fs1 (findAaeFile fs1 orig)
        (targetDir ++ '/' :: (finalStem ++ ".aae".data)) targetDir with
    | (fs2, w2, ok) => (fs2, w1.toList ++ w2.toList, ok)

/-- `FileOrganizer.copy_duplicate_photo`: invalid or dateless metadata is
skipped; the dated target directory `<dup>/<year>/<mm>/<dd>` is created
only outside dry-run; the filename is generated and conflict-resolved;
the primary byte copy happens only outside dry-run — but
`_copy_associated_files` runs unconditionally, in dry-run too.  Returns
`(result, filesystem, written file paths, counter state)`. -/
def copy_duplicate_photo (isDryRun : Bool)
    (counters : List (List Char × Nat)) (fs : Fs) (m : OrgMeta)
    (duplicatesDir : List Char) :
    Bool × Fs × List (List Char) × List (List Char × Nat) :=
  match m.creation_date with
  | none => (false, fs, [], counters)
  | some dt =>
    if m.is_valid = false then (false, fs, [], counters)
    else
      match generate_filename counters dt m.file_extension with
      | (nm, counters2) =>
        match (if isDryRun then fs
               else fs ++ [duplicatesDir ++ '/' :: (natChars dt.year ++
                 '/' :: (zfill 2 (natChars dt.month) ++
                   '/' :: zfill 2 (natChars dt.day)))]) with
        | fs1 =>
          match duplicatesDir ++ '/' :: (natChars dt.year ++
              '/' :: (zfill 2 (natChars dt.month) ++
                '/' :: zfill 2 (natChars dt.day))) with
          | targetDir =>
            match resolveFilenameConflict fs1 targetDir nm with
            | finalName =>
              if isDryRun then
                match copyAssociatedFiles fs1 m.original_path targetDir
                    (pyStem finalName) with
                | (fs2, written, ok) => (ok, fs2, written, counters2)
              else
                if targetDir ∈ fs1 then
                  match copyAssociatedFiles
                      (fs1 ++ [targetDir ++ '/' :: finalName])
                      m.original_path targetDir (pyStem finalName) with
                  | (fs2, written, ok) =>
                    (ok, fs2, (targetDir ++ '/' :: finalName) :: written,
                     counters2)
                else (false, fs1, [], counters2)

/-- `FileOrganizer.copy_photo_with_metadata`: same gates, but in dry-run
only `_log_associated_files` runs (reads and logs, no writes), and the
associated copies happen only on the real path. -/
def copy_photo_with_metadata (isDryRun : Bool)
    (counters : List (List Char × Nat)) (fs : Fs) (m : OrgMeta)
    (targetDir : List Char) :
    Bool × Fs × List (List Char) × List (List Char × Nat) :=
  match m.creation_date with
  | none => (false, fs, [], counters)
  | some dt =>
    if m.is_valid = false then (false, fs, [], counters)
    else
      match generate_filename counters dt m.file_extension with
      | (nm, counters2) =>
        match resolveFilenameConflict fs targetDir nm with
        | finalName =>
          if isDryRun then (true, fs, [], counters2)
          else
            if targetDir ∈ fs then
              match copyAssociatedFiles (fs ++ [targetDir ++ '/' :: finalName])
                  m.original_path targetDir (pyStem finalName) with
              | (fs2, written, ok) =>
                (ok, fs2, (targetDir ++ '/' :: finalName) :: written,
                 counters2)
            else (false, fs, [], counters2)

/-- The C3 failing scenario: a valid dated photo with an existing XMP
sidecar, and a duplicates directory whose dated subdirectory already
exists. -/
def c3Meta : OrgMeta :=
  ⟨⟨"/src".data, "A.jpg".data⟩, ".jpg".data,
   some ⟨2023, 6, 15, 10, 0, 0, 0⟩, true⟩

/-- The filesystem of the C3 scenario. -/
def c3Fs : Fs :=
  ["/src/A.jpg".data, "/src/A.jpg.xmp".data, "/dup/2023/06/15".data]

set_option maxRecDepth 8000 in
/-- Claim C3 fails on the code: in dry-run mode `copy_duplicate_photo`
still copies the associated XMP sidecar (its `_copy_associated_files`
call sits outside the dry-run guard), mutating the filesystem, while the
sibling `copy_photo_with_metadata` correctly performs no mutation in
dry-run. -/
theorem C3_dry_run_mutation :
    (copy_duplicate_photo true [] c3Fs c3Meta "/dup".data).2.2.1 =
      ["/dup/2023/06/15/20230615-100000-001.xmp".data] ∧
    (copy_duplicate_photo true [] c3Fs c3Meta "/dup".data).2.1 ≠ c3Fs ∧
    (copy_photo_with_metadata true [] c3Fs c3Meta
        "/dup/2023/06/15".data).2.2.1 = [] ∧
    (copy_photo_with_metadata true [] c3Fs c3Meta
        "/dup/2023/06/15".data).2.1 = c3Fs := by
  refine ⟨by decide, by decide, by decide, by decide⟩

/-! ## Claims C6 and C7: run_export orchestration -/

/-- The environment of one `run_export` call: the files found by scanning
the source tree in traversal order, the entries of the target directory
(subdirectory names, with each subdirectory's own entries), and the
available bytes reported for the target filesystem. -/
structure RunEnv where
  sourceFiles : List PFile
  targetSubdirs : List (List Char)
  subdirEntries : List (List Char × List (List Char))
  availableBytes : Nat
deriving DecidableEq, Repr

/-- The photo-file enumeration of `run_export`: non-hidden files whose
lower-cased suffix is a supported image or video format. -/
def enumeratePhotoFiles (files : List PFile) : List PFile :=
  files.filter (fun f =>
    f.name.head? ≠ some '.' ∧ (f.ext ∈ IMAGE_FORMATS ∨ f.ext ∈ VIDEO_FORMATS))

/-- The duplicate-resolution step of `run_export` for the strategies that
reach it: remove every member of a duplicate group from the processing
list, then (except under `skip_duplicates`) add back the first occurrence
of each group — `keep_first`, `preserve_duplicates` and the
unknown-strategy fallback all resolve to `paths[0]` per group. -/
def resolvedAfterDuplicates (strategy : List Char)
    (photoFiles : List PFile) : List PFile :=
  if detect_duplicates photoFiles = [] then photoFiles
  else
    if strategy = "skip_duplicates".data then
      photoFiles.filter
        (fun f => f ∉ (detect_duplicates photoFiles).flatMap (·.2))
    else
      photoFiles.filter
        (fun f => f ∉ (detect_duplicates photoFiles).flatMap (·.2)) ++
        (detect_duplicates photoFiles).flatMap (fun g => g.2.take 1)

/-- The disk-space safety margin `int(required_size_bytes * 1.1)` of
`_check_disk_space`, modelled in exact arithmetic. -/
def requiredWithBuffer (n : Nat) : Nat := n * 11 / 10

/-- Total byte size of a processing list. -/
def requiredBytes (files : List PFile) : Nat := (files.map (·.fileSize)).sum

/-- The observable outcome of one `run_export` call: the duplicates-area
folders it removed, the files that reached per-file processing (copying,
or simulation in dry-run), whether the disk-space check ran, whether it
aborted the run, and whether the source tree was enumerated at all. -/
structure RunResult where
  removedDuplicateFolders : List (List Char)
  processedFiles : List PFile
  spaceChecked : Bool
  abortedForSpace : Bool
  enumerated : Bool
deriving DecidableEq, Repr

/-- `PhotoExporter.run_export`: the `!delete!` strategy is handled before
anything else; the timestamped export directory `target/<now>` is created
(`exist_ok=True`, so a pre-existing directory keeps its entries, and in
dry-run nothing is created but a pre-existing directory can still be
globbed); `cleanup_duplicates` then globs `duplicates_*` inside that
export directory and returns without touching the source; otherwise the
source is enumerated, duplicates are resolved, and — only in dry-run —
the disk-space gate compares the available bytes against the buffered
requirement, aborting when insufficient. -/
def runExport (strategy : List Char) (isDryRun : Bool) (now : List Char)
    (env : RunEnv) : RunResult :=
  if strategy = "!delete!".data then
    ⟨[], [], false, false, false⟩
  else
    if strategy = "cleanup_duplicates".data then
      { removedDuplicateFolders :=
          if isDryRun then []
          else (if now ∈ env.targetSubdirs
                then (alGet env.subdirEntries now).getD [] else []).filter
            (fun e => List.isPrefixOf "duplicates_".data e),
        processedFiles := [], spaceChecked := false,
        abortedForSpace := false, enumerated := false }
    else
      if enumeratePhotoFiles env.sourceFiles = [] then
        ⟨[], [], false, false, true⟩
      else
        if isDryRun then
          if env.availableBytes < requiredWithBuffer (requiredBytes
              (resolvedAfterDuplicates strategy
                (enumeratePhotoFiles env.sourceFiles))) then
            ⟨[], [], true, true, true⟩
          else
            ⟨[], resolvedAfterDuplicates strategy
              (enumeratePhotoFiles env.sourceFiles), true, false, true⟩
        else
          ⟨[], resolvedAfterDuplicates strategy
            (enumeratePhotoFiles env.sourceFiles), false, false, true⟩

/-- The C6 failing scenario: the target holds an earlier run's export
directory `20230101-000000` which contains a preserved duplicates
side-area `duplicates_20230101-000001`, and the source holds one photo. -/
def c6Env : RunEnv :=
  { sourceFiles := [⟨"/s/A.jpg".data, "A.jpg".data, ".jpg".data, 5,
      some [1, 2]⟩],
    targetSubdirs := ["20230101-000000".data],
    subdirEntries := [("20230101-000000".data,
      ["duplicates_20230101-000001".data, "2023".data])],
    availableBytes := 1000000 }

set_option maxRecDepth 8000 in
/-- Claim C6 fails on the code: a `cleanup_duplicates` run globs
`duplicates_*` inside the freshly timestamped export directory it just
created — which is empty — so the earlier run's duplicates side-area,
although present under the target, is never found and nothing is removed.
The second half of the claim holds: no source file is enumerated or
processed. -/
theorem C6_cleanup_removes_nothing :
    ("duplicates_20230101-000001".data ∈
      (alGet c6Env.subdirEntries "20230101-000000".data).getD []) ∧
    (runExport "cleanup_duplicates".data false "20240101-000000".data
        c6Env).removedDuplicateFolders = [] ∧
    (runExport "cleanup_duplicates".data false "20240101-000000".data
        c6Env).processedFiles = [] ∧
    (runExport "cleanup_duplicates".data false "20240101-000000".data
        c6Env).enumerated = false := by
  refine ⟨by decide, by decide, by decide, by decide⟩

/-- The C7 failing scenario: one large photo in the source, zero bytes
available on the target. -/
def c7Env : RunEnv :=
  { sourceFiles := [⟨"/s/A.jpg".data, "A.jpg".data, ".jpg".data,
      1000000000, some [1]⟩],
    targetSubdirs := [], subdirEntries := [], availableBytes := 0 }

set_option maxRecDepth 8000 in
/-- Claim C7 fails on the code: in run (non-dry-run) mode no disk-space
check is performed at all — the pre-check is guarded by `if
self.is_dry_run` — so with zero available bytes the file is still
processed and copied instead of the run aborting. -/
theorem C7_counterexample :
    c7Env.availableBytes <
      requiredWithBuffer (requiredBytes
        (resolvedAfterDuplicates "keep_first".data
          (enumeratePhotoFiles c7Env.sourceFiles))) ∧
    (runExport "keep_first".data false "20240101-000000".data
        c7Env).spaceChecked = false ∧
    (runExport "keep_first".data false "20240101-000000".data
        c7Env).abortedForSpace = false ∧
    (runExport "keep_first".data false "20240101-000000".data
        c7Env).processedFiles =
      [⟨"/s/A.jpg".data, "A.jpg".data, ".jpg".data, 1000000000, some [1]⟩] := by
  refine ⟨by decide, by decide, by decide, by decide⟩

/-- Claim C7 (amended): the disk-space pre-check — available bytes
against `int(required * 1.1)` — runs only in dry-run mode and only when
there are photo files; an insufficient dry-run aborts before any file is
simulated; run mode performs no pre-check, and its processing list is
computed regardless of the available space. -/
theorem C7_disk_space_gate_amended (env : RunEnv) (now strategy : List Char)
    (hs1 : strategy ≠ "!delete!".data)
    (hs2 : strategy ≠ "cleanup_duplicates".data) :
    ((runExport strategy false now env).spaceChecked = false ∧
      (runExport strategy false now env).abortedForSpace = false) ∧
    (enumeratePhotoFiles env.sourceFiles ≠ [] →
      (runExport strategy false now env).processedFiles =
        resolvedAfterDuplicates strategy
          (enumeratePhotoFiles env.sourceFiles)) ∧
    (enumeratePhotoFiles env.sourceFiles ≠ [] →
      env.availableBytes < requiredWithBuffer (requiredBytes
        (resolvedAfterDuplicates strategy
          (enumeratePhotoFiles env.sourceFiles))) →
      (runExport strategy true now env).spaceChecked = true ∧
      (runExport strategy true now env).abortedForSpace = true ∧
      (runExport strategy true now env).processedFiles = []) ∧
    (enumeratePhotoFiles env.sourceFiles ≠ [] →
      requiredWithBuffer (requiredBytes
        (resolvedAfterDuplicates strategy
          (enumeratePhotoFiles env.sourceFiles))) ≤ env.availableBytes →
      (runExport strategy true now env).processedFiles =
        resolvedAfterDuplicates strategy
          (enumeratePhotoFiles env.sourceFiles)) := by
  refine ⟨?_, ?_, ?_, ?_⟩
  · by_cases he : enumeratePhotoFiles env.sourceFiles = [] <;>
      simp [runExport, hs1, hs2, he]
  · intro he
    simp [runExport, hs1, hs2, he]
  · intro he hlt
    simp [runExport, hs1, hs2, he, hlt]
  · intro he hge
    simp [runExport, hs1, hs2, he, Nat.not_lt.mpr hge]

set_option maxRecDepth 8000 in
/-- Witness for `C7_disk_space_gate_amended` on the concrete environment
with zero available bytes: the dry run aborts with no processed files. -/
theorem C7_witness :
    (enumeratePhotoFiles c7Env.sourceFiles ≠ [] ∧
      c7Env.availableBytes < requiredWithBuffer (requiredBytes
        (resolvedAfterDuplicates "keep_first".data
          (enumeratePhotoFiles c7Env.sourceFiles)))) ∧
    ((runExport "keep_first".data true "20240101-000000".data
        c7Env).spaceChecked = true ∧
      (runExport "keep_first".data true "20240101-000000".data
        c7Env).abortedForSpace = true ∧
      (runExport "keep_first".data true "20240101-000000".data
        c7Env).processedFiles = []) :=
  ⟨⟨by decide, by decide⟩,
    (C7_disk_space_gate_amended c7Env "20240101-000000".data
      "keep_first".data (by decide) (by decide)).2.2.1 (by decide)
      (by decide)⟩
